import Mathlib

/-!
Verification development for the KDB+ MCP client
(`aira/src/aiq_aira/kdb_tools_nat.py`, class `KDBNATClient`).

The Python code is shallowly embedded: Python strings become `String`,
Python dict/JSON values become the `PyJson` inductive type, the MCP
transport and the language model become explicit deterministic oracles,
and dictionaries of per-table probe results become association lists.
Each definition mirrors one Python function (named after it where Lean
allows); theorems at the end of the file settle the specification claims.
-/

namespace KdbNat

/-! ### Python string primitives

The embedded code manipulates strings exactly the way the Python source
does, so we first model the handful of `str` methods it uses.  All
functions operate on `List Char` internally and are structurally
recursive so that closed instances evaluate by `decide`/`rfl`. -/

/-- Whitespace characters recognized by Python's `str.strip()`. -/
def pyIsWs (c : Char) : Bool :=
  c = ' ' || c = '\t' || c = '\n' || c = '\x0d' || c = '\x0b' || c = '\x0c'

/-- Python `str.strip()` on a character list. -/
def stripL (l : List Char) : List Char :=
  ((l.dropWhile pyIsWs).reverse.dropWhile pyIsWs).reverse

/-- Python `str.strip()`. -/
def pyStrip (s : String) : String := String.mk (stripL s.data)

/-- Python `str.strip(chars)`: remove the given characters from both ends. -/
def pyStripChars (cs : List Char) (s : String) : String :=
  String.mk (((s.data.dropWhile (cs.contains ·)).reverse.dropWhile (cs.contains ·)).reverse)

/-- ASCII lower-casing, as Python `str.lower()` does on ASCII text. -/
def lowerL (l : List Char) : List Char := l.map Char.toLower

/-- Python `str.lower()` (ASCII). -/
def pyLower (s : String) : String := String.mk (lowerL s.data)

/-- Python `str.upper()` (ASCII). -/
def pyUpper (s : String) : String := String.mk (s.data.map Char.toUpper)

/-- Does `pat` occur as a prefix of `l`? -/
def startsWithL (pat l : List Char) : Bool := pat.isPrefixOf l

/-- Python `needle in haystack` for strings: substring containment. -/
def containsSub (haystack needle : List Char) : Bool :=
  haystack.tails.any (fun t => startsWithL needle t)

/-- Python `needle in haystack` on `String`s. -/
def pyContains (haystack needle : String) : Bool :=
  containsSub haystack.data needle.data

/-- Index of the first occurrence of `pat` in `l` (Python `str.find`,
restricted to found/not-found as an `Option`). -/
def findSubL (pat : List Char) : List Char → Option Nat
  | [] => if pat.isEmpty then some 0 else none
  | c :: rest =>
    if startsWithL pat (c :: rest) then some 0
    else (findSubL pat rest).map (· + 1)

/-- Python `str.replace(old, new)`: replace all non-overlapping
occurrences, scanning left to right.  `fuel` bounds recursion and is
instantiated with the input length. -/
def replaceFuel (old new : List Char) : Nat → List Char → List Char
  | _, [] => []
  | 0, l => l
  | Nat.succ fuel, c :: rest =>
    if ¬ old.isEmpty && startsWithL old (c :: rest) then
      new ++ replaceFuel old new fuel ((c :: rest).drop old.length)
    else
      c :: replaceFuel old new fuel rest

/-- Python `str.replace(old, new)` on `String`s. -/
def pyReplace (s old new : String) : String :=
  String.mk (replaceFuel old.data new.data s.data.length s.data)

/-! ### JSON values (`json.loads` / Python dicts)

`PyJson` models the values produced by Python's `json` module and the
dictionaries the client passes around.  Numbers keep their textual
integer / fraction / exponent parts so no floating point semantics is
needed; object key/value pairs keep insertion order like Python dicts. -/

inductive PyJson where
  | null : PyJson
  | bool (b : Bool) : PyJson
  | num (neg : Bool) (intPart fracPart expPart : String) : PyJson
  | str (s : String) : PyJson
  | arr (items : List PyJson) : PyJson
  | obj (fields : List (String × PyJson)) : PyJson

/-- Convenience: the JSON integer `n`. -/
def PyJson.ofNat (n : Nat) : PyJson := PyJson.num false (toString n) "" ""

/-- Python truthiness of a JSON value (`if val:`): `None`, `False`,
numeric zero, and empty strings/lists/dicts are falsy. -/
def PyJson.truthy : PyJson → Bool
  | .null => false
  | .bool b => b
  | .num _ i f _ => ¬ (i.data.all (· = '0') && f.data.all (· = '0'))
  | .str s => s ≠ ""
  | .arr xs => ¬ xs.isEmpty
  | .obj kvs => ¬ kvs.isEmpty

/-- Dict lookup, Python `d.get(k)` (first matching key; the parser keeps
keys unique by letting later duplicates overwrite). -/
def PyJson.get : PyJson → String → Option PyJson
  | .obj kvs, k => (kvs.find? (fun kv => kv.1 = k)).map (·.2)
  | _, _ => none

/-- Python `d.get(k, default)`. -/
def PyJson.getD (j : PyJson) (k : String) (d : PyJson) : PyJson :=
  (j.get k).getD d

/-- Render a JSON scalar the way Python `str()` renders the parsed value
(used for f-string interpolation of reasoning/limitations and for the
`str(row[...])` calls).  Containers are rendered in a `repr`-like form;
the embedded code only ever interpolates scalars. -/
def PyJson.pyStr : PyJson → String
  | .null => "None"
  | .bool true => "True"
  | .bool false => "False"
  | .num neg i f e =>
    (if neg then "-" else "") ++ i ++ (if f = "" then "" else "." ++ f)
      ++ (if e = "" then "" else "e" ++ e)
  | .str s => s
  | .arr _ => "[...]"
  | .obj _ => "\x7b...\x7d"

/-! ### JSON parser (`json.loads`)

A strict recursive-descent parser following the JSON grammar that
Python's `json.loads` accepts: standard whitespace, exact literals,
no leading zeros, `\uXXXX` escapes mapped through `Char.ofNat`, and an
"extra data" failure when non-whitespace trails the value.  Fuel-based
so closed calls reduce. -/

/-- JSON structural whitespace. -/
def jsonWs (c : Char) : Bool := c = ' ' || c = '\t' || c = '\n' || c = '\x0d'

/-- Drop leading JSON whitespace. -/
def skipWs (l : List Char) : List Char := l.dropWhile jsonWs

/-- Hex digit value. -/
def hexVal (c : Char) : Option Nat :=
  if '0' ≤ c ∧ c ≤ '9' then some (c.toNat - '0'.toNat)
  else if 'a' ≤ c ∧ c ≤ 'f' then some (c.toNat - 'a'.toNat + 10)
  else if 'A' ≤ c ∧ c ≤ 'F' then some (c.toNat - 'A'.toNat + 10)
  else none

/-- Parse the body of a JSON string literal (after the opening quote),
returning the decoded text and the remainder after the closing quote. -/
def parseJsonString : List Char → Option (List Char × List Char)
  | [] => none
  | '"' :: rest => some ([], rest)
  | '\\' :: esc :: rest =>
    match esc with
    | '"' => (parseJsonString rest).map (fun (s, r) => ('"' :: s, r))
    | '\\' => (parseJsonString rest).map (fun (s, r) => ('\\' :: s, r))
    | '/' => (parseJsonString rest).map (fun (s, r) => ('/' :: s, r))
    | 'b' => (parseJsonString rest).map (fun (s, r) => ('\x08' :: s, r))
    | 'f' => (parseJsonString rest).map (fun (s, r) => ('\x0c' :: s, r))
    | 'n' => (parseJsonString rest).map (fun (s, r) => ('\n' :: s, r))
    | 'r' => (parseJsonString rest).map (fun (s, r) => ('\x0d' :: s, r))
    | 't' => (parseJsonString rest).map (fun (s, r) => ('\t' :: s, r))
    | 'u' =>
      match rest with
      | h1 :: h2 :: h3 :: h4 :: rest' =>
        match hexVal h1, hexVal h2, hexVal h3, hexVal h4 with
        | some a, some b, some c, some d =>
          let code := ((a * 16 + b) * 16 + c) * 16 + d
          (parseJsonString rest').map (fun (s, r) => (Char.ofNat code :: s, r))
        | _, _, _, _ => none
      | _ => none
    | _ => none
  | c :: rest =>
    if c.toNat < 0x20 then none
    else (parseJsonString rest).map (fun (s, r) => (c :: s, r))

/-- Parse digits greedily. -/
def takeDigits (l : List Char) : List Char × List Char :=
  (l.takeWhile Char.isDigit, l.dropWhile Char.isDigit)

/-- Parse the optional fraction part of a JSON number; a bare `.` with
no digits is a parse error. -/
def parseFrac (l : List Char) : Option (List Char × List Char) :=
  match l with
  | '.' :: r =>
    let (ds, r') := takeDigits r
    if ds.isEmpty then none else some (ds, r')
  | _ => some ([], l)

/-- Parse the optional exponent part of a JSON number; `e`/`E` with no
digits after the optional sign is a parse error. -/
def parseExp (l : List Char) : Option (List Char × List Char) :=
  match l with
  | c :: r =>
    if c = 'e' ∨ c = 'E' then
      let (sgn, r1) := match r with
        | '+' :: r' => ((['+'] : List Char), r')
        | '-' :: r' => (['-'], r')
        | _ => ([], r)
      let (ds, r2) := takeDigits r1
      if ds.isEmpty then none else some (sgn ++ ds, r2)
    else some ([], l)
  | [] => some ([], [])

/-- Parse a JSON number starting at the head of `l`; JSON forbids
leading zeros ("0" alone or a nonzero leading digit). -/
def parseJsonNumber (l : List Char) : Option (PyJson × List Char) :=
  let (neg, l1) := match l with
    | '-' :: r => (true, r)
    | _ => (false, l)
  let (ints, l2) := takeDigits l1
  if ints.isEmpty then none
  else if ints.length > 1 ∧ ints.headD '0' = '0' then none
  else
    match parseFrac l2 with
    | none => none
    | some (frac, l3) =>
      match parseExp l3 with
      | none => none
      | some (ex, l4) =>
        some (PyJson.num neg (String.mk ints) (String.mk frac) (String.mk ex), l4)

/-- Insert a key into an object's field list, Python-dict style:
a duplicate key overwrites in place. -/
def objInsert (kvs : List (String × PyJson)) (k : String) (v : PyJson) :
    List (String × PyJson) :=
  if kvs.any (fun kv => kv.1 = k) then
    kvs.map (fun kv => if kv.1 = k then (k, v) else kv)
  else kvs ++ [(k, v)]

mutual

/-- Parse one JSON value; returns the value and the unconsumed rest. -/
def parseValue : Nat → List Char → Option (PyJson × List Char)
  | 0, _ => none
  | Nat.succ fuel, l =>
    match skipWs l with
    | 'n' :: 'u' :: 'l' :: 'l' :: rest => some (PyJson.null, rest)
    | 't' :: 'r' :: 'u' :: 'e' :: rest => some (PyJson.bool true, rest)
    | 'f' :: 'a' :: 'l' :: 's' :: 'e' :: rest => some (PyJson.bool false, rest)
    | '"' :: rest =>
      (parseJsonString rest).map (fun (s, r) => (PyJson.str (String.mk s), r))
    | '\x7b' :: rest => parseObjBody fuel rest true
    | '[' :: rest => parseArrBody fuel rest true
    | l' => parseJsonNumber l'

/-- Parse the members of an object after `{` (or after a comma when
`first = false` ... the flag distinguishes the empty-object case). -/
def parseObjBody : Nat → List Char → Bool → Option (PyJson × List Char)
  | 0, _, _ => none
  | Nat.succ fuel, l, first =>
    match skipWs l, first with
    | '\x7d' :: rest, true => some (PyJson.obj [], rest)
    | l', _ =>
      match l' with
      | '"' :: rest =>
        match parseJsonString rest with
        | none => none
        | some (k, r1) =>
          match skipWs r1 with
          | ':' :: r2 =>
            match parseValue fuel r2 with
            | none => none
            | some (v, r3) =>
              match skipWs r3 with
              | ',' :: r4 =>
                match parseObjBody fuel r4 false with
                | some (PyJson.obj kvs, r5) =>
                  some (PyJson.obj (objInsert kvs (String.mk k) v), r5)
                | _ => none
              | '\x7d' :: r4 => some (PyJson.obj [(String.mk k, v)], r4)
              | _ => none
          | _ => none
      | _ => none

/-- Parse the elements of an array after `[`. -/
def parseArrBody : Nat → List Char → Bool → Option (PyJson × List Char)
  | 0, _, _ => none
  | Nat.succ fuel, l, first =>
    match skipWs l, first with
    | ']' :: rest, true => some (PyJson.arr [], rest)
    | l', _ =>
      match parseValue fuel l' with
      | none => none
      | some (v, r1) =>
        match skipWs r1 with
        | ',' :: r2 =>
          match parseArrBody fuel r2 false with
          | some (PyJson.arr xs, r3) => some (PyJson.arr (v :: xs), r3)
          | _ => none
        | ']' :: r2 => some (PyJson.arr [v], r2)
        | _ => none

end

/-- Python `json.loads`: parse a complete JSON document; any
non-whitespace trailing data is an error. -/
def jsonLoads (s : String) : Option PyJson :=
  match parseValue (s.data.length + 2) s.data with
  | some (v, rest) => if (skipWs rest).isEmpty then some v else none
  | none => none

/-! ### Think-tag stripping

`_extract_json`, `_extract_sql_fallback` and `simple_chat_query` all run
the same two case-insensitive substitutions:
`re.sub(r'<think>[\s\S]*?</think>', '', text)` followed by
`re.sub(r'<think>[\s\S]*$', '', text)`. -/

/-- Case-insensitive occurrence search: index of the first occurrence of
the (lowercase) pattern in `l`, ignoring case. -/
def findCI (pat : String) (l : List Char) : Option Nat :=
  findSubL pat.data (lowerL l)

/-- One pass of `re.sub(r'<think>[\s\S]*?</think>', '', text)`: each
match starts at a `<think>` and lazily ends at the first following
`</think>`; scanning resumes after the replaced span.  If the first
`<think>` has no `</think>` anywhere after it, no later one does either,
so the remainder is left unchanged. -/
def stripThinkPairs : Nat → List Char → List Char
  | 0, l => l
  | Nat.succ fuel, l =>
    match findCI "<think>" l with
    | none => l
    | some i =>
      let after := l.drop (i + 7)
      match findCI "</think>" after with
      | none => l
      | some j => l.take i ++ stripThinkPairs fuel (after.drop (j + 8))

/-- Python `re.sub(r'<think>[\s\S]*$', '', text, flags=IGNORECASE)`:
truncate at the first remaining `<think>`. -/
def stripUnterminatedThink (l : List Char) : List Char :=
  match findCI "<think>" l with
  | none => l
  | some i => l.take i

/-- Both think-tag substitutions, as applied in sequence by the source. -/
def stripThinkTags (s : String) : String :=
  String.mk (stripUnterminatedThink (stripThinkPairs s.data.length s.data))

/-! ### The JSON extractor (`KDBNATClient._extract_json`) -/

/-- The three-backtick fence characters. -/
def tick3 : List Char := ['`', '`', '`']

/-- Skip regex `\s*` (Python whitespace class). -/
def skipPyWs (l : List Char) : List Char := l.dropWhile pyIsWs

/-- Is position `k` of `l` a valid end of the regex group
`(\{[\s\S]*\})` inside `` ```(?:json)?\s*(\{[\s\S]*\})\s*``` ``: the
character is `}` and after it `\s*` reaches a closing fence? -/
def closeOk (l : List Char) (k : Nat) : Bool :=
  l.getD k ' ' = '\x7d' && startsWithL tick3 (skipPyWs (l.drop (k + 1)))

/-- The greedy group `(\{[\s\S]*\})`: `l` starts at the `{`; the group
runs to the largest `}` whose tail matches `\s*`​``` (greedy `[\s\S]*`
with backtracking). -/
def fenceGroup (l : List Char) : Option (List Char) :=
  match (List.range l.length).reverse.find? (closeOk l) with
  | some k => some (l.take (k + 1))
  | none => none

/-- Match the fence regex right after the opening ``` : the greedy
`(?:json)?` first tries to consume `json`; then `\s*` followed by the
literal `{` can only stop at the first non-whitespace character. -/
def matchAfterTicks (l : List Char) : Option (List Char) :=
  let body : List Char → Option (List Char) := fun m =>
    match skipPyWs m with
    | '\x7b' :: rest => fenceGroup ('\x7b' :: rest)
    | _ => none
  match (if startsWithL ['j', 's', 'o', 'n'] l then body (l.drop 4) else none) with
  | some g => some g
  | none => body l

/-- Leftmost search for
`` re.search(r'```(?:json)?\s*(\{[\s\S]*\})\s*```', text) ``,
returning the captured group. -/
def fenceSearch : List Char → Option (List Char)
  | [] => none
  | c :: rest =>
    if startsWithL tick3 (c :: rest) then
      match matchAfterTicks ((c :: rest).drop 3) with
      | some g => some g
      | none => fenceSearch rest
    else fenceSearch rest

/-- Last index of `}` in `l` (Python `text.rfind('}')`). -/
def rfindBrace (l : List Char) : Option Nat :=
  (findSubL ['\x7d'] l.reverse).map (fun j => l.length - 1 - j)

/-- The balanced-brace scan at the end of `_extract_json`: track depth,
remember where a top-level `{` opened, and at each top-level `}` try to
parse the span; on failure reset and keep scanning. -/
def balancedScan (t : List Char) : Option String :=
  go t 0 0 none
where
  go : List Char → Nat → Int → Option Nat → Option String
    | [], _, _, _ => none
    | c :: rest, i, depth, start =>
      if c = '\x7b' then
        go rest (i + 1) (depth + 1) (if depth = 0 then some i else start)
      else if c = '\x7d' then
        let depth' := depth - 1
        match start with
        | some s =>
          if depth' = 0 then
            let cand := String.mk ((t.drop s).take (i + 1 - s))
            if (jsonLoads cand).isSome then some cand
            else go rest (i + 1) depth' none
          else go rest (i + 1) depth' start
        | none => go rest (i + 1) depth' none
      else go rest (i + 1) depth start

/-- The substring-from-first-`{`-to-last-`}` attempt, falling through to
the balanced scan on a parse failure (the source returns `None` outright
when no brace pair exists). -/
def braceFallback (t : List Char) : Option String :=
  match findSubL ['\x7b'] t with
  | none => none
  | some i =>
    match rfindBrace t with
    | none => none
    | some j =>
      if j ≤ i then none
      else
        let cand := String.mk ((t.drop i).take (j + 1 - i))
        if (jsonLoads cand).isSome then some cand
        else balancedScan t

/-- The full `KDBNATClient._extract_json`: strip think tags, fail on
empty text, then try fenced block / first-last brace / balanced scan in
order, validating each candidate by parsing. -/
def extractJson (text : String) : Option String :=
  let t := stripL (stripUnterminatedThink (stripThinkPairs text.data.length text.data))
  if t.isEmpty then none
  else
    let viaBlock : Option String :=
      match fenceSearch t with
      | some g =>
        let cand := String.mk (stripL g)
        if (jsonLoads cand).isSome then some cand else none
      | none => none
    match viaBlock with
    | some c => some c
    | none => braceFallback t

/-! ### Fast-path SQL cleanup (`KDBNATClient.simple_chat_query`)

The fast path takes the raw model response, strips think tags and
markdown fences, removes wrapping quotes and escape backslashes, then
validates/rescues a `SELECT`.  The value produced here is exactly the
string passed to `call_tool("kdbx_run_sql_query", ...)`; `none` models
the "Could not generate SQL" early return. -/

/-- The regex rescue `re.search(r'SELECT\s+.+', sql, IGNORECASE|DOTALL)`:
at the leftmost case-insensitive `SELECT` followed by a whitespace
character and at least one further character, the greedy match runs to
the end of the string. -/
def selectRescueL : List Char → Option (List Char)
  | [] => none
  | c :: rest =>
    let l := c :: rest
    if startsWithL ['s', 'e', 'l', 'e', 'c', 't'] (lowerL l) then
      match l.drop 6 with
      | w :: _ :: _ => if pyIsWs w then some l else selectRescueL rest
      | _ => selectRescueL rest
    else selectRescueL rest

/-- The SQL string `simple_chat_query` executes for a raw model
response (strip, de-fence, unquote, unescape, validate-or-rescue),
or `none` when it gives up with "Could not generate SQL". -/
def simpleChatCleanSql (rawResponse : String) : Option String :=
  let sql0 := pyStrip rawResponse
  let sql1 := stripThinkTags sql0
  let sql2 := pyStrip (pyReplace (pyReplace sql1 "```sql" "") "```" "")
  let sql3 := pyStripChars ['"', '\''] sql2
  let sql4 := pyReplace sql3 "\\\"" "\""
  let sql5 := pyReplace sql4 "\\'" "'"
  if startsWithL ['S', 'E', 'L', 'E', 'C', 'T'] (pyUpper sql5).data then some sql5
  else
    match selectRescueL sql5.data with
    | some m => some (pyStrip (String.mk m))
    | none => none

/-! ### Python value equality, iteration and dict updates -/

mutual

/-- Python `==` on parsed JSON values.  Structural; Python's numeric
coercions (`1 == 1.0`) and order-insensitive dict comparison are not
reproduced — every value this development compares is a scalar. -/
def pyEq : PyJson → PyJson → Bool
  | .null, .null => true
  | .bool x, .bool y => x == y
  | .num n1 i1 f1 e1, .num n2 i2 f2 e2 => n1 == n2 && i1 == i2 && f1 == f2 && e1 == e2
  | .str x, .str y => x == y
  | .arr xs, .arr ys => pyEqList xs ys
  | .obj xs, .obj ys => pyEqFields xs ys
  | _, _ => false

/-- Elementwise `pyEq` on lists. -/
def pyEqList : List PyJson → List PyJson → Bool
  | [], [] => true
  | x :: xs, y :: ys => pyEq x y && pyEqList xs ys
  | _, _ => false

/-- Elementwise `pyEq` on object fields. -/
def pyEqFields : List (String × PyJson) → List (String × PyJson) → Bool
  | [], [] => true
  | (k1, v1) :: xs, (k2, v2) :: ys => k1 == k2 && pyEq v1 v2 && pyEqFields xs ys
  | _, _ => false

end

/-- Python `for x in data` over a JSON value: lists yield elements,
dicts yield their keys, strings yield one-character strings.  The
remaining values are not iterable; callers that catch the resulting
`TypeError` use this with an explicit non-iterable case, callers that
would crash model the crash separately. -/
def pyIter : PyJson → List PyJson
  | .arr xs => xs
  | .obj kvs => kvs.map (fun kv => PyJson.str kv.1)
  | .str s => s.data.map (fun c => PyJson.str (String.mk [c]))
  | _ => []

/-- Is the value one Python can iterate (list, dict or str)? -/
def pyIterable : PyJson → Bool
  | .arr _ => true
  | .obj _ => true
  | .str _ => true
  | _ => false

/-- Python dict assignment `d[k] = v` on an object value: overwrite an
existing key in place, else append. -/
def jsonSet (j : PyJson) (k : String) (v : PyJson) : PyJson :=
  match j with
  | .obj kvs => .obj (objInsert kvs k v)
  | _ => j

/-- Python `d.update(other)`: assign every key of `other` in order. -/
def jsonUpdate (j : PyJson) (entries : List (String × PyJson)) : PyJson :=
  entries.foldl (fun acc kv => jsonSet acc kv.1 kv.2) j

/-- Python `sep.join(parts)`. -/
def pyJoin (sep : String) : List String → String
  | [] => ""
  | [x] => x
  | x :: xs => x ++ sep ++ pyJoin sep xs

/-! ### MCP tool invocation (`KDBNATClient.call_tool`)

A transport attempt either raises (modelled as `Except.error` carrying
`str(e)`) or yields a raw MCP result.  A raw result is either an object
with the optional attributes the code probes with `hasattr` (an object
carrying none of them behaves as the `str(result)` fallback case) or a
plain Python dict. -/

/-- One raw MCP content item, as probed by `hasattr`: a `text`
attribute, or `type` plus `data` attributes, or an embedded `resource`
(uri, text, mimeType); `strRepr` is `str(item)` for the fallback. -/
structure RawItem where
  text : Option String
  typeAndData : Option (String × PyJson)
  res : Option (String × String × String)
  strRepr : String

/-- A raw MCP call result: an attribute-bearing object or a plain dict.
On the object, each `Option` models `hasattr`. -/
inductive RawResult where
  | mcpObj (isErr : Option Bool) (content : Option (List RawItem))
      (structured : Option PyJson) (strRepr : String) : RawResult
  | dict (d : PyJson) : RawResult

/-- Convert one MCP content item to the client's dict format, following
the `hasattr` chain of `call_tool`. -/
def convertItem (it : RawItem) : PyJson :=
  match it.text with
  | some t => .obj [("type", .str "text"), ("text", .str t)]
  | none =>
    match it.typeAndData with
    | some (ty, da) => .obj [("type", .str ty), ("data", da)]
    | none =>
      match it.res with
      | some (uri, txt, mime) =>
        .obj [("type", .str "resource"), ("uri", .str uri), ("text", .str txt),
              ("mimeType", .str mime)]
      | none => .obj [("type", .str "text"), ("text", .str it.strRepr)]

/-- The texts of the `type == "text"` entries of a converted content
list (the `error_texts` comprehension). -/
def errorTexts (contentList : List PyJson) : List String :=
  contentList.filterMap (fun c =>
    match c.get "type" with
    | some (.str "text") =>
      some (match c.get "text" with
            | some (.str s) => s
            | _ => "")
    | _ => none)

/-- The embedded `KDBNATClient.call_tool`: convert the MCP result (or
the caught exception) into the client's response dict.  `transport`
models the awaited `_call_with_session` round trip. -/
def callTool (transport : Except String RawResult) (toolName : String) (args : PyJson) :
    PyJson :=
  match transport with
  | .error e =>
    .obj [("error", .str e), ("tool", .str toolName), ("arguments", args),
          ("isError", .bool true),
          ("content", .arr [.obj [("type", .str "text"),
                                  ("text", .str ("Tool execution error: " ++ e))]])]
  | .ok result =>
    let response := PyJson.obj
      [("tool", .str toolName), ("arguments", args), ("isError", .bool false)]
    match result with
    | .mcpObj isErr contentOpt structured strRepr =>
      let response := match isErr with
        | some b => jsonSet response "isError" (.bool b)
        | none => response
      let response := match contentOpt with
        | some items =>
          let contentList := items.map convertItem
          let r := jsonSet response "content" (.arr contentList)
          if (r.getD "isError" .null).truthy ∧ ¬ contentList.isEmpty then
            let texts := errorTexts contentList
            if ¬ texts.isEmpty then jsonSet r "error" (.str (pyJoin " " texts)) else r
          else r
        | none => response
      match structured with
      | some sc => jsonSet response "structuredContent" sc
      | none =>
        jsonSet response "content"
          (.arr [.obj [("type", .str "text"), ("text", .str strRepr)]])
    | .dict d =>
      let r := jsonUpdate response (match d with | .obj kvs => kvs | _ => [])
      jsonSet (jsonSet r "tool" (.str toolName)) "arguments" args

/-! ### Result-content extraction helpers

`_extract_column_values`, `_extract_single_value`, `_extract_date_range`
and `_extract_columns_from_result` all walk `result["content"]`, parse
each text item's payload, unwrap the `data` field (decoding it a second
time when it is a string), and read rows.  Their `except` clauses catch
`JSONDecodeError` and `TypeError` only; an uncaught exception (notably
`data[0]` on a dict, a `KeyError`) escapes to the per-table handler of
`discover_data_content`, which we model with `Except Unit`. -/

/-- Python `isinstance(item, dict) and item.get("type") == "text"`. -/
def isTextItem (item : PyJson) : Bool :=
  match item with
  | .obj _ =>
    match item.get "type" with
    | some (.str t) => t = "text"
    | _ => false
  | _ => false

/-- Python `item.get("text", "")`; a non-string payload would make the
subsequent `json.loads` raise the caught `TypeError`, which coincides
with the parse failure of the empty string. -/
def itemText (item : PyJson) : String :=
  match item.get "text" with
  | some (.str s) => s
  | _ => ""

/-- The `content` list of a result (`result.get("content", [])`),
iterated the way Python would. -/
def contentItems (result : PyJson) : List PyJson :=
  pyIter (result.getD "content" (.arr []))

/-- Decode one text item's `data` field: parse the text, and when the
parse yields a dict take `data` (default `[]`), decoding it once more
when it is a string.  `none` models every caught failure (text parse
error, non-dict payload, failing inner decode). -/
def decodedData (text : String) : Option PyJson :=
  match jsonLoads text with
  | some (.obj kvs) =>
    match (PyJson.obj kvs).getD "data" (.arr []) with
    | .str s => jsonLoads s
    | d => some d
  | _ => none

/-- Per-item outcome inside the extraction loops: keep scanning, return
a value, or raise an uncaught exception. -/
inductive ItemOut (α : Type) where
  | skip : ItemOut α
  | ret (a : α) : ItemOut α
  | raise : ItemOut α

/-- Shared guard `if data and len(data) > 0` plus the `data[0]` access:
yields the first row for lists and strings, raises `KeyError` for dicts
(`data[0]` key lookup), and skips for the falsy or non-`len`-able cases
(the latter a caught `TypeError`). -/
def dataFirstRow (data : PyJson) : ItemOut PyJson :=
  if ¬ data.truthy then .skip
  else
    match data with
    | .arr (row :: _) => .ret row
    | .arr [] => .skip
    | .str s =>
      match s.data with
      | c :: _ => .ret (.str (String.mk [c]))
      | [] => .skip
    | .obj _ => .raise
    | _ => .skip

/-- The embedded `_extract_column_values`: collect the truthy, not yet
seen values of `column` across the dict rows of every text item.  This
walk cannot raise. -/
def extractColumnValues (result : PyJson) (column : String) : List PyJson :=
  (contentItems result).foldl
    (fun values item =>
      if isTextItem item then
        match decodedData (itemText item) with
        | some data =>
          (pyIter data).foldl
            (fun values row =>
              match row with
              | .obj _ =>
                match row.get column with
                | some val =>
                  if val.truthy ∧ ¬ values.any (fun v => pyEq val v) then
                    values ++ [val]
                  else values
                | none => values
              | _ => values)
            values
        | none => values
      else values)
    []

/-- The embedded `_extract_single_value`: at the first text item whose
decoded `data` is truthy with an indexable first row, return
`data[0].get(key)` (a missing key or JSON `null` are both Python
`None`). -/
def extractSingleValue (result : PyJson) (key : String) : Except Unit (Option PyJson) :=
  go (contentItems result)
where
  go : List PyJson → Except Unit (Option PyJson)
    | [] => .ok none
    | item :: rest =>
      if isTextItem item then
        match decodedData (itemText item) with
        | some data =>
          match dataFirstRow data with
          | .raise => .error ()
          | .skip => go rest
          | .ret row =>
            match row with
            | .obj _ =>
              .ok (match row.get key with
                   | some .null => none
                   | some v => some v
                   | none => none)
            | _ => go rest
        | none => go rest
      else go rest

/-- Python `key in row` for the membership tests of
`_extract_date_range`: dict keys, list elements (by `==`), substring on
strings; non-containers raise the caught `TypeError`. -/
def rowHasKey (row : PyJson) (key : String) : ItemOut Bool :=
  match row with
  | .obj kvs => .ret (kvs.any (fun kv => kv.1 = key))
  | .arr xs => .ret (xs.any (fun x => pyEq (.str key) x))
  | .str s => .ret (pyContains s key)
  | _ => .raise

/-- The info dict built from one row by `_extract_date_range`: a
`date_range` entry when both bounds are present, a `row_count` entry
when present.  Indexing a non-dict row raises the caught `TypeError`,
which skips the item. -/
def dateInfoOfRow (row : PyJson) : ItemOut (List (String × PyJson)) :=
  match rowHasKey row "min_date", rowHasKey row "max_date" with
  | .raise, _ => .skip
  | _, .raise => .skip
  | .ret hmin, .ret hmax =>
    match row with
    | .obj _ =>
      let info1 := if hmin ∧ hmax then
          [("date_range", PyJson.obj
            [("min", .str ((row.getD "min_date" .null).pyStr)),
             ("max", .str ((row.getD "max_date" .null).pyStr))])]
        else []
      .ret (match rowHasKey row "row_count" with
            | .ret true => info1 ++ [("row_count", row.getD "row_count" .null)]
            | _ => info1)
    | _ =>
      -- a non-dict row that passes a membership test is then indexed,
      -- raising the caught TypeError → the item is skipped
      if hmin ∧ hmax then .skip
      else match rowHasKey row "row_count" with
        | .ret true => .skip
        | _ => .ret []
  | _, _ => .skip

/-- The embedded `_extract_date_range`: at the first text item with a
truthy decoded `data`, build the info dict from `data[0]`. -/
def extractDateRange (result : PyJson) : Except Unit (List (String × PyJson)) :=
  go (contentItems result)
where
  go : List PyJson → Except Unit (List (String × PyJson))
    | [] => .ok []
    | item :: rest =>
      if isTextItem item then
        match decodedData (itemText item) with
        | some data =>
          match dataFirstRow data with
          | .raise => .error ()
          | .skip => go rest
          | .ret row =>
            match dateInfoOfRow row with
            | .ret info => .ok info
            | .skip => go rest
            | .raise => .error ()
        | none => go rest
      else go rest

/-- The embedded `_extract_columns_from_result`: the keys of the first
dict row of the first suitable text item. -/
def extractColumnsFromResult (result : PyJson) : Except Unit (List String) :=
  go (contentItems result)
where
  go : List PyJson → Except Unit (List String)
    | [] => .ok []
    | item :: rest =>
      if isTextItem item then
        match decodedData (itemText item) with
        | some data =>
          match dataFirstRow data with
          | .raise => .error ()
          | .skip => go rest
          | .ret row =>
            match row with
            | .obj kvs => .ok (kvs.map (·.1))
            | _ => go rest
        | none => go rest
      else go rest

/-! ### The data-content prober (`KDBNATClient.discover_data_content`)

Column-name pattern lists and the per-table probing loop.  The SQL tool
is reached through `call_tool("kdbx_run_sql_query", {"query": q})`; the
oracle `exec` maps the query string to the response dict that call
returns.  Each issued probe is also recorded as a typed event paired
with its exact query string. -/

def DEFAULT_SYMBOL_PATTERNS : List String :=
  ["sym", "symbol", "ticker", "stock", "instrument", "security"]

def DEFAULT_DATE_PATTERNS : List String :=
  ["date", "datetime", "time", "timestamp", "dt", "ts"]

def DEFAULT_TEXT_PATTERNS : List String :=
  ["title", "summary", "description", "text", "content", "name",
   "headline", "body", "message", "comment", "note"]

/-- The configurable column-detection pattern lists of the client. -/
structure Patterns where
  symbolPatterns : List String := DEFAULT_SYMBOL_PATTERNS
  datePatterns : List String := DEFAULT_DATE_PATTERNS
  textPatterns : List String := DEFAULT_TEXT_PATTERNS

/-- The column filter the source applies for each pattern list:
`[c for c in columns if c.lower() in patterns]` — membership of the
lowercased column name in the pattern list (exact equality, not
substring). -/
def matchingColumns (patterns : List String) (columns : List String) : List String :=
  columns.filter (fun c => patterns.contains (pyLower c))

/-- Probe events, one per issued SQL query. -/
inductive Probe where
  | columnsOf : Probe
  | countRows : Probe
  | distinctSymbols (col : String) : Probe
  | dateMinMax (col : String) : Probe
  | sampleText (col : String) : Probe

/-- Python truthiness of `result.get("error")` / `result.get("isError")`
(the guard `if not result.get("error") and not result.get("isError")`).  -/
def resultHasError (result : PyJson) : Bool :=
  (result.getD "error" .null).truthy || (result.getD "isError" .null).truthy

/-- First stage of the per-table loop: `table_info = {"columns":
schema_columns}`, querying `SELECT * FROM … LIMIT 1` for the column
names only when the schema provided none. -/
def probeColumnsStage (exec : String → PyJson) (table : String)
    (schemaColumns : List String) :
    Except Unit (PyJson × List String) × List (Probe × String) :=
  let info0 := PyJson.obj [("columns", .arr (schemaColumns.map PyJson.str))]
  if schemaColumns.isEmpty then
    let q := "SELECT * FROM " ++ table ++ " LIMIT 1"
    let result := exec q
    match extractColumnsFromResult result with
    | .error _ => (.error (), [(Probe.columnsOf, q)])
    | .ok cols =>
      let info := if ¬ cols.isEmpty then jsonSet info0 "columns" (.arr (cols.map .str))
                  else info0
      (.ok (info, cols), [(Probe.columnsOf, q)])
  else (.ok (info0, schemaColumns), [])

/-- Row-count stage (`SELECT COUNT(*) as row_count FROM …`), skipped on
an error flag, best-effort on a missing value. -/
def probeCountStage (exec : String → PyJson) (table : String) (info : PyJson) :
    Except Unit PyJson × List (Probe × String) :=
  let q := "SELECT COUNT(*) as row_count FROM " ++ table
  let rCount := exec q
  (if ¬ resultHasError rCount then
     match extractSingleValue rCount "row_count" with
     | .error _ => .error ()
     | .ok (some v) => .ok (jsonSet info "row_count" v)
     | .ok none => .ok info
   else .ok info,
   [(Probe.countRows, q)])

/-- Distinct-values stage on the first symbol-pattern column. -/
def probeSymbolsStage (exec : String → PyJson) (table : String)
    (symbolColumns : List String) (info : PyJson) :
    PyJson × List (Probe × String) :=
  match symbolColumns with
  | [] => (info, [])
  | symCol :: _ =>
    let q := "SELECT DISTINCT " ++ symCol ++ " FROM " ++ table ++ " LIMIT 100"
    let result := exec q
    if ¬ resultHasError result then
      let symbols := extractColumnValues result symCol
      if ¬ symbols.isEmpty then
        (jsonSet (jsonSet info "symbols" (.arr symbols)) "symbol_column" (.str symCol),
         [(Probe.distinctSymbols symCol, q)])
      else (info, [(Probe.distinctSymbols symCol, q)])
    else (info, [(Probe.distinctSymbols symCol, q)])

/-- Min/max stage on the first date-pattern column
(`table_info.update(date_info)` plus `date_column`). -/
def probeDateStage (exec : String → PyJson) (table : String)
    (dateColumns : List String) (info : PyJson) :
    Except Unit PyJson × List (Probe × String) :=
  match dateColumns with
  | [] => (.ok info, [])
  | dateCol :: _ =>
    let q := "SELECT MIN(" ++ dateCol ++ ") as min_date, MAX(" ++ dateCol ++
             ") as max_date FROM " ++ table
    let result := exec q
    if ¬ resultHasError result then
      match extractDateRange result with
      | .error _ => (.error (), [(Probe.dateMinMax dateCol, q)])
      | .ok dateInfo =>
        if ¬ dateInfo.isEmpty then
          (.ok (jsonSet (jsonUpdate info dateInfo) "date_column" (.str dateCol)),
           [(Probe.dateMinMax dateCol, q)])
        else (.ok info, [(Probe.dateMinMax dateCol, q)])
    else (.ok info, [(Probe.dateMinMax dateCol, q)])

/-- Sample-text stage on the first text-pattern column, ordered by the
first date column when one exists. -/
def probeTextStage (exec : String → PyJson) (table : String)
    (textColumns dateColumns : List String) (info : PyJson) :
    PyJson × List (Probe × String) :=
  match textColumns with
  | [] => (info, [])
  | textCol :: _ =>
    let info := jsonSet info "text_columns" (.arr (textColumns.map .str))
    let orderClause := match dateColumns with
      | dateCol :: _ => "ORDER BY " ++ dateCol ++ " DESC"
      | [] => ""
    let q := "SELECT DISTINCT " ++ textCol ++ " FROM " ++ table ++ " " ++
             orderClause ++ " LIMIT 10"
    let result := exec q
    if ¬ resultHasError result then
      let samples := extractColumnValues result textCol
      if ¬ samples.isEmpty then
        (jsonSet info "sample_text" (.obj [(textCol, .arr (samples.take 10))]),
         [(Probe.sampleText textCol, q)])
      else (info, [(Probe.sampleText textCol, q)])
    else (info, [(Probe.sampleText textCol, q)])

/-- The body of the per-table loop of `discover_data_content`: the five
probing stages in source order, best-effort per field.  Returns the
entry stored into `_data_content` (`none` when the columns guard fails
or an uncaught extraction exception hits the per-table handler)
together with the issued probes. -/
def probeTable (pats : Patterns) (exec : String → PyJson) (table : String)
    (schemaColumns : List String) : Option PyJson × List (Probe × String) :=
  match probeColumnsStage exec table schemaColumns with
  | (.error _, evs0) => (none, evs0)
  | (.ok (info, columns), evs0) =>
    match probeCountStage exec table info with
    | (.error _, evs1) => (none, evs0 ++ evs1)
    | (.ok info, evs1) =>
      let symbolColumns := matchingColumns pats.symbolPatterns columns
      let (info, evs2) := probeSymbolsStage exec table symbolColumns info
      let dateColumns := matchingColumns pats.datePatterns columns
      match probeDateStage exec table dateColumns info with
      | (.error _, evs3) => (none, evs0 ++ evs1 ++ evs2 ++ evs3)
      | (.ok info, evs3) =>
        let textColumns := matchingColumns pats.textPatterns columns
        let (info, evs4) := probeTextStage exec table textColumns dateColumns info
        if (info.getD "columns" .null).truthy then
          (some info, evs0 ++ evs1 ++ evs2 ++ evs3 ++ evs4)
        else (none, evs0 ++ evs1 ++ evs2 ++ evs3 ++ evs4)

/-- The table loop of `discover_data_content`: probe each table, storing
the info dict into the `_data_content` cache (Python dict assignment)
when its columns guard passes; a skipped table leaves the cache as is. -/
def discoverLoop (pats : Patterns) (exec : String → PyJson) :
    List (String × List String) → List (String × PyJson) → List (String × PyJson)
  | [], cache => cache
  | (t, cs) :: rest, cache =>
    match (probeTable pats exec t cs).1 with
    | some info => discoverLoop pats exec rest (objInsert cache t info)
    | none => discoverLoop pats exec rest cache

/-! ### The executor / re-planning loop (`KDBNATClient.intelligent_query`)

The loop is embedded over three oracles: `plannerO i s` is the plan dict
`_plan_tool_usage` returns at iteration `i` when the accumulated
discovered schema is `s` (the model call made deterministic per call
site), `callT name args` is the response dict of `self.call_tool`, and
`synthO` is `_synthesize_results`.  Ghost fields record every
`additional_schema` value passed to the planner, every issued tool call
and every executed step's annotated result; `crashed` marks runs where
the Python code would let an exception escape (non-dict steps or
results, non-string purposes, malformed content). -/

/-- Keywords classifying a step's purpose as schema discovery. -/
def discKeywords : List String :=
  ["schema", "discover", "list tables", "describe", "metadata"]

/-- Schema text concatenation for the planner prompt
(`_plan_tool_usage`, the `## Dynamically Discovered Schema` merge). -/
def combinedSchemaDescription (base additionalSchema : String) : String :=
  if additionalSchema ≠ "" then
    base ++ "\n\n## Dynamically Discovered Schema:\n" ++ additionalSchema
  else base

/-- Python `step.get("purpose", "").lower()` succeeds only on a missing
or string-valued purpose; anything else raises `AttributeError`. -/
def purposeOf (step : PyJson) : Except Unit String :=
  match step.get "purpose" with
  | some (.str s) => .ok s
  | none => .ok ""
  | some _ => .error ()

/-- Text parts collected by `_extract_schema_from_result`: the `text`
of dict items typed `text` and bare string items; joining a non-string
`text` raises. -/
def schemaPartsOf : List PyJson → Except Unit (List String)
  | [] => .ok []
  | item :: rest =>
    let tail := schemaPartsOf rest
    match item with
    | .obj _ =>
      if isTextItem item then
        match item.get "text" with
        | some (.str s) => tail.map (s :: ·)
        | none => tail.map ("" :: ·)
        | some _ => .error ()
      else tail
    | .str s => tail.map (s :: ·)
    | _ => tail

/-- `_extract_schema_from_result(result.get("content", []))`. -/
def schemaTextOfResult (result : PyJson) : Except Unit String :=
  match result.get "content" with
  | none => .ok ""
  | some v =>
    if pyIterable v then (schemaPartsOf (pyIter v)).map (pyJoin "\n")
    else .error ()

/-- Python `for step in plan["steps"]`. -/
def stepsIter (v : PyJson) : Except Unit (List PyJson) :=
  if pyIterable v then .ok (pyIter v) else .error ()

/-- Running accumulators of `intelligent_query`. -/
structure LoopState where
  allResults : List PyJson
  discovered : String
  planArgs : List String
  calls : List (PyJson × PyJson)

/-- How a run of `intelligent_query` ended. -/
inductive RunKind where
  | noData : RunKind
  | noTools : RunKind
  | unable : RunKind
  | synth : RunKind
  | crashed : RunKind
deriving DecidableEq

/-- Observable outcome of a run plus the ghost trace. -/
structure LoopRun where
  kind : RunKind
  answer : String
  returned : List PyJson
  executed : List PyJson
  planArgs : List String
  calls : List (PyJson × PyJson)

/-- Execute the steps of one plan in order (the inner `for step in
plan["steps"]` loop), threading the accumulators and the
`schema_discovery_done` flag. -/
def stepLoop (callT : PyJson → PyJson → PyJson) :
    List PyJson → LoopState → Bool → Except Unit (LoopState × Bool)
  | [], st, done => .ok (st, done)
  | step :: rest, st, done =>
    match step with
    | .obj _ =>
      let toolName := step.getD "tool" .null
      let args := step.getD "arguments" (.obj [])
      match purposeOf step with
      | .error _ => .error ()
      | .ok pu =>
        let purposeLower := pyLower pu
        let result := callT toolName args
        match result with
        | .obj _ =>
          let result' := jsonSet result "purpose" (step.getD "purpose" (.str ""))
          let st := { st with
            allResults := st.allResults ++ [result'],
            calls := st.calls ++ [(toolName, args)] }
          if discKeywords.any (fun kw => pyContains purposeLower kw) then
            if ¬ (result'.getD "error" .null).truthy then
              match schemaTextOfResult result' with
              | .error _ => .error ()
              | .ok t =>
                let st := if t ≠ "" then
                    { st with discovered := st.discovered ++ "\n\nDiscovered from " ++
                        toolName.pyStr ++ ":\n" ++ t }
                  else st
                stepLoop callT rest st true
            else stepLoop callT rest st true
          else stepLoop callT rest st done
        | _ => .error ()
    | _ => .error ()

/-- Python `plan.get("data_available") is False`. -/
def dataAvailableIsFalse (p : PyJson) : Bool :=
  match p.get "data_available" with
  | some (.bool false) => true
  | _ => false

/-- Early exits of the iteration loop. -/
inductive IQExit where
  | retNoData (answer : String) : IQExit
  | retNoTools (answer : String) : IQExit
  | fall : IQExit
  | crash : IQExit

/-- The `for iteration in range(max_iterations)` loop.  `iter` is the
current iteration index, `remaining` the iterations left; the
re-planning guard `iteration < max_iterations - 1` is `remaining > 1`. -/
def iqLoop (plannerO : Nat → String → PyJson) (callT : PyJson → PyJson → PyJson) :
    Nat → Nat → LoopState → IQExit × LoopState
  | _, 0, st => (.fall, st)
  | iter, Nat.succ rem, st =>
    let plan := plannerO iter st.discovered
    let st := { st with planArgs := st.planArgs ++ [st.discovered] }
    if dataAvailableIsFalse plan then
      let limitations := plan.getD "limitations" (.str "")
      let reasoning := plan.getD "reasoning" (.str "")
      let answer := if limitations.truthy then
          reasoning.pyStr ++ "\n\n" ++ limitations.pyStr
        else reasoning.pyStr
      (.retNoData answer, st)
    else
      if ¬ (plan.getD "steps" .null).truthy then
        if iter = 0 then
          (.retNoTools
            (plan.getD "reasoning" (.str "Unable to answer with available tools.")).pyStr,
           st)
        else (.fall, st)
      else
        match stepsIter (plan.getD "steps" .null) with
        | .error _ => (.crash, st)
        | .ok steps =>
          match stepLoop callT steps st false with
          | .error _ => (.crash, st)
          | .ok (st, schemaDone) =>
            if schemaDone ∧ rem > 0 then iqLoop plannerO callT (iter + 1) rem st
            else (.fall, st)

/-- The embedded `intelligent_query` (its loop and post-loop synthesis;
the claims concern an initialized client, so the initialization preamble
is outside the model).  Returns the `(answer, tool_results)` pair plus
the ghost trace. -/
def intelligentQuery (plannerO : Nat → String → PyJson)
    (callT : PyJson → PyJson → PyJson) (synthO : List PyJson → String)
    (maxIterations : Nat) : LoopRun :=
  let st0 : LoopState := ⟨[], "", [], []⟩
  match iqLoop plannerO callT 0 maxIterations st0 with
  | (.retNoData answer, st) =>
    ⟨.noData, answer, [], st.allResults, st.planArgs, st.calls⟩
  | (.retNoTools answer, st) =>
    ⟨.noTools, answer, [], st.allResults, st.planArgs, st.calls⟩
  | (.crash, st) => ⟨.crashed, "", [], st.allResults, st.planArgs, st.calls⟩
  | (.fall, st) =>
    if st.allResults.isEmpty then
      ⟨.unable, "Unable to answer with available tools.", [], st.allResults,
       st.planArgs, st.calls⟩
    else
      ⟨.synth, synthO st.allResults, st.allResults, st.allResults, st.planArgs, st.calls⟩

/-! ### Schema discovery (`_discover_schema`) and `refresh_schema`

The schema synthesizer reads the server's resources (already converted
to the client's dict form by the environment), filters them by audience,
sorts by priority, reads and categorizes their contents, and rebuilds
the derived string state.  When the server offers no resources it falls
back to tool-based discovery.  Priorities are compared as exact
rationals in place of Python floats. -/

/-- Rational value of a JSON number (for `float(priority)`). -/
def numRat (neg : Bool) (i f e : String) : Rat :=
  let di : Nat := i.data.foldl (fun a c => a * 10 + (c.toNat - 48)) 0
  let df : Nat := f.data.foldl (fun a c => a * 10 + (c.toNat - 48)) 0
  let base : Rat := (di : Rat) + (df : Rat) / ((10 : Rat) ^ f.length)
  let ev : Int := match e.data with
    | '-' :: ds => -((String.mk ds).data.foldl (fun a c => a * 10 + (c.toNat - 48)) 0 : Int)
    | '+' :: ds => ((String.mk ds).data.foldl (fun a c => a * 10 + (c.toNat - 48)) 0 : Int)
    | _ => (e.data.foldl (fun a c => a * 10 + (c.toNat - 48)) 0 : Int)
  let scaled := base * (10 : Rat) ^ ev
  if neg then -scaled else scaled

/-- Python `float(s)` for a string, restricted to finite decimal
literals (optionally signed digits with optional fraction and
exponent); `none` models the `ValueError` cases. -/
def pyFloatParse (s : String) : Option Rat :=
  let l := stripL s.data
  let (neg, l1) := match l with
    | '-' :: r => (true, r)
    | '+' :: r => (false, r)
    | _ => (false, l)
  let (ints, l2) := takeDigits l1
  let (frac, l3) := match l2 with
    | '.' :: r => takeDigits r
    | _ => ([], l2)
  if ints.isEmpty ∧ frac.isEmpty then none
  else
    let consumedDot := match l2 with
      | '.' :: _ => true
      | _ => false
    let l3' := if consumedDot then l3 else l2
    match l3' with
    | [] => some (numRat neg (String.mk ints) (String.mk frac) "")
    | c :: r =>
      if c = 'e' ∨ c = 'E' then
        let (sgn, r1) := match r with
          | '+' :: r' => ((['+'] : List Char), r')
          | '-' :: r' => (['-'], r')
          | _ => ([], r)
        let (ds, r2) := takeDigits r1
        if ds.isEmpty ∨ ¬ r2.isEmpty then none
        else some (numRat neg (String.mk ints) (String.mk frac) (String.mk (sgn ++ ds)))
      else none

/-- Python `float(x)` over a JSON value (`TypeError` for the rest). -/
def floatOfPyJson : PyJson → Option Rat
  | .num neg i f e => some (numRat neg i f e)
  | .bool b => some (if b then 1 else 0)
  | .str s => pyFloatParse s
  | _ => none

/-- The embedded `_is_resource_for_llm`. -/
def isResourceForLlm (r : PyJson) : Bool :=
  let ann := r.getD "annotations" (.obj [])
  if ¬ ann.truthy then true
  else
    let audience := ann.getD "audience" (.arr [])
    if audience.truthy then
      match audience with
      | .arr xs => xs.any (fun a => ["llm", "assistant", "ai"].any (fun v => pyEq a (.str v)))
      | aud => ["llm", "assistant", "ai"].any (fun v => pyEq aud (.str v))
    else true

/-- The embedded `_get_resource_priority` (default 0.5, `float()`
failures fall back to 0.5). -/
def resourcePriority (r : PyJson) : Rat :=
  let ann := r.getD "annotations" (.obj [])
  let p := ann.getD "priority" (.num false "0" "5" "")
  (floatOfPyJson p).getD (1 / 2)

/-- Stable insertion into a descending-by-key list: equal keys keep the
existing (earlier) element first, matching Python's stable `sorted`
with `reverse=True`. -/
def insertDesc {α : Type} (key : α → Rat) (x : α) : List α → List α
  | [] => [x]
  | y :: ys => if key y ≤ key x ∧ ¬ key x ≤ key y then x :: y :: ys
               else y :: insertDesc key x ys

/-- Stable descending sort by key (Python `sorted(key=…, reverse=True)`
and `list.sort(key=…, reverse=True)`). -/
def sortDesc {α : Type} (key : α → Rat) (l : List α) : List α :=
  l.foldr (insertDesc key) []

/-- Dict assignment on a string-keyed association list. -/
def assocSetStr (d : List (String × String)) (k v : String) : List (String × String) :=
  if d.any (·.1 = k) then d.map (fun kv => if kv.1 = k then (k, v) else kv)
  else d ++ [(k, v)]

/-- Client state relevant to schema discovery and refresh (`__init__`
fields; tools are kept as the (name, description) pairs the fallback
path reads). -/
structure ClientState where
  tools : List (String × String)
  resources : List PyJson
  schemaDescription : String
  sqlGuidance : String
  additionalContext : List (String × String)
  dataContent : List (String × PyJson)
  dataContentDiscovered : Bool

/-- Environment of one `_discover_schema` run: the server's resource
dicts (post-conversion), the `_read_resource` oracle and the
`call_tool` oracle used by the fallback path. -/
structure SchemaEnv where
  serverResources : List PyJson
  readRes : PyJson → String
  callT : String → PyJson → PyJson

/-- Keyword lists categorizing a resource by its name+description. -/
def schemaCatKeywords : List String :=
  ["schema", "tables", "describe", "meta", "column", "structure"]

def guidanceCatKeywords : List String :=
  ["sql", "guidance", "query", "syntax", "example", "how to"]

/-- Read and categorize the sorted LLM-facing resources (the `for
resource in llm_resources` loop): collect all non-empty contents plus
the three prioritized part lists. -/
def readAndCategorize (readRes : PyJson → String) (llmResources : List PyJson) :
    List (String × String) × List (Rat × String) × List (Rat × String) ×
      List (Rat × String × String) :=
  llmResources.foldl
    (fun acc r =>
      let (allContents, schemaParts, guidanceParts, otherParts) := acc
      let uri := r.getD "uri" .null
      let nameLower := pyLower ((r.getD "name" (.str "")).pyStr)
      let descriptionLower := pyLower ((r.getD "description" (.str "")).pyStr)
      let resourceName := (r.getD "name" uri).pyStr
      let priority := resourcePriority r
      let content := readRes uri
      if content ≠ "" then
        let allContents := assocSetStr allContents resourceName content
        let combined := nameLower ++ " " ++ descriptionLower
        if schemaCatKeywords.any (fun kw => pyContains combined kw) then
          (allContents, schemaParts ++ [(priority, "## " ++ resourceName ++ "\n" ++ content)],
           guidanceParts, otherParts)
        else if guidanceCatKeywords.any (fun kw => pyContains combined kw) then
          (allContents, schemaParts,
           guidanceParts ++ [(priority, "## " ++ resourceName ++ "\n" ++ content)], otherParts)
        else
          (allContents, schemaParts, guidanceParts,
           otherParts ++ [(priority, resourceName, content)])
      else acc)
    ([], [], [], [])

/-- The embedded `_build_schema_description_from_contents`. -/
def buildFromContents (contents : List (String × String)) : String :=
  if contents.isEmpty then "No schema information available."
  else
    let parts := contents.foldl
      (fun acc kv =>
        let (name, content) := kv
        acc ++ ["\n### " ++ name] ++
          [if content.data.length > 5000 then
             String.mk (content.data.take 5000) ++ "\n... (truncated)"
           else content])
      ["## Available Resources from MCP Server"]
    pyJoin "\n" parts

/-- The embedded `_build_schema_description` (resource-list fallback). -/
def buildSchemaDescription (resources : List PyJson) : String :=
  if resources.isEmpty then "No schema information available."
  else
    let parts := resources.foldl
      (fun acc r =>
        let uri := r.getD "uri" (.str "")
        let name := (r.getD "name" uri).pyStr
        let desc := r.getD "description" (.str "")
        acc ++ [if desc.truthy then "- " ++ name ++ ": " ++ desc.pyStr else "- " ++ name])
      ["Available resources/tables:"]
    pyJoin "\n" parts

/-- Keywords identifying schema-related tools in the fallback path. -/
def toolSchemaKeywords : List String :=
  ["schema", "tables", "describe", "list", "meta", "columns"]

/-- The canonical list-tables queries of the SQL fallback. -/
def fallbackQueries : List String :=
  ["tables[]", "meta `", "SHOW TABLES", "SELECT name FROM tables"]

/-- First tool-based discovery loop of `_discover_schema_via_tools`:
call each schema-looking tool with empty arguments until one yields a
usable schema text (extraction crashes are caught per tool). -/
def viaToolsLoop (callT : String → PyJson → PyJson) :
    List (String × String) → Option String
  | [] => none
  | (name, desc) :: rest =>
    if toolSchemaKeywords.any (fun kw =>
        pyContains (pyLower name) kw || pyContains (pyLower desc) kw) then
      let result := callT name (.obj [])
      if ¬ (result.getD "error" .null).truthy then
        match schemaTextOfResult result with
        | .error _ => viaToolsLoop callT rest
        | .ok t =>
          if t ≠ "" ∧ ¬ pyContains (pyLower t) "error" then some t
          else viaToolsLoop callT rest
      else viaToolsLoop callT rest
    else viaToolsLoop callT rest

/-- Inner query loop of the SQL fallback for one query tool. -/
def viaSqlQueries (callT : String → PyJson → PyJson) (tool : String) :
    List String → Option String
  | [] => none
  | q :: qs =>
    let result := callT tool (.obj [("query", .str q)])
    if ¬ (result.getD "error" .null).truthy then
      match schemaTextOfResult result with
      | .error _ => viaSqlQueries callT tool qs
      | .ok t =>
        if t ≠ "" ∧ ¬ pyContains (pyLower t) "error" ∧
            ¬ pyContains (pyLower t) "can\x27t lookup" then some t
        else viaSqlQueries callT tool qs
    else viaSqlQueries callT tool qs

/-- Outer loop of the SQL fallback over the sql/query-capable tools. -/
def viaSqlTools (callT : String → PyJson → PyJson) : List String → Option String
  | [] => none
  | tool :: rest =>
    match viaSqlQueries callT tool fallbackQueries with
    | some t => some t
    | none => viaSqlTools callT rest

/-- The placeholder schema installed when every discovery path fails. -/
def placeholderSchema : String :=
  "Schema information not available at initialization.\nIMPORTANT: Use the available tools to discover the database schema dynamically before querying data.\nDo NOT assume any table or column names exist."

/-- The embedded `_discover_schema_via_tools`. -/
def discoverSchemaViaTools (callT : String → PyJson → PyJson) (s : ClientState) :
    ClientState :=
  match viaToolsLoop callT s.tools with
  | some t => { s with schemaDescription := t }
  | none =>
    let sqlTools := (s.tools.filter (fun nd =>
      pyContains (pyLower nd.1) "sql" || pyContains (pyLower nd.1) "query")).map (·.1)
    match viaSqlTools callT sqlTools with
    | some t => { s with schemaDescription := "Available tables:\n" ++ t }
    | none => { s with schemaDescription := placeholderSchema }

/-- The embedded `_discover_schema`: the resource path when the server
reports resources, else the tools fallback. -/
def discoverSchema (env : SchemaEnv) (s : ClientState) : ClientState :=
  if ¬ env.serverResources.isEmpty then
    let s := { s with resources := env.serverResources }
    let llmResources := env.serverResources.filter isResourceForLlm
    let llmResources := sortDesc resourcePriority llmResources
    let (allContents, schemaParts, guidanceParts, otherParts) :=
      readAndCategorize env.readRes llmResources
    let schemaParts := sortDesc (·.1) schemaParts
    let guidanceParts := sortDesc (·.1) guidanceParts
    let otherParts := sortDesc (·.1) otherParts
    let s := if ¬ schemaParts.isEmpty then
        { s with schemaDescription := pyJoin "\n\n" (schemaParts.map (·.2)) }
      else s
    let s := if ¬ guidanceParts.isEmpty then
        { s with sqlGuidance := pyJoin "\n\n" (guidanceParts.map (·.2)) }
      else s
    let s := if ¬ otherParts.isEmpty then
        { s with additionalContext :=
            otherParts.foldl (fun d p => assocSetStr d p.2.1 p.2.2) [] }
      else s
    let s := if s.schemaDescription = "" ∧ ¬ allContents.isEmpty then
        { s with schemaDescription := buildFromContents allContents }
      else s
    if s.schemaDescription = "" then
      { s with schemaDescription := buildSchemaDescription s.resources }
    else s
  else
    discoverSchemaViaTools env.callT s

/-- The embedded `refresh_schema`: clear schema text, additional
context, the data-content cache and its flag, then re-run discovery. -/
def refreshSchema (env : SchemaEnv) (s : ClientState) : ClientState :=
  discoverSchema env
    { s with
      schemaDescription := "",
      additionalContext := [],
      dataContent := [],
      dataContentDiscovered := false }

/-! ### Auxiliary predicates used by the claim statements -/

/-- The symbol-column selection the specification describes: a column
matches when some configured pattern occurs as a case-insensitive
substring of its name.  Modelled from the spec's words, for comparison
with the source's `matchingColumns`. -/
def specSubstringMatchColumns (patterns : List String) (columns : List String) :
    List String :=
  columns.filter (fun c => patterns.any (fun p => pyContains (pyLower c) p))

/-- A plan step the Python loop can execute without raising: a dict
whose `purpose`, when present, is a string. -/
def stepWf (step : PyJson) : Bool :=
  match step with
  | .obj _ =>
    match step.get "purpose" with
    | some (.str _) => true
    | none => true
    | some _ => false
  | _ => false

/-- The purpose string of a well-formed step (`step.get("purpose", "")`). -/
def purposeStr (step : PyJson) : String :=
  match step.get "purpose" with
  | some (.str s) => s
  | _ => ""

/-- Does a step's purpose classify it as schema discovery? -/
def stepIsDiscovery (step : PyJson) : Bool :=
  discKeywords.any (fun kw => pyContains (pyLower (purposeStr step)) kw)

/-- A tool-call result the loop can process without raising: a dict
whose content, when present, is iterable with string `text` fields on
its text-typed items. -/
def resultWf (r : PyJson) : Bool :=
  match r with
  | .obj _ =>
    match r.get "content" with
    | none => true
    | some (.arr items) => items.all (fun item =>
        match item with
        | .obj _ =>
          if isTextItem item then
            match item.get "text" with
            | some (.str _) => true
            | none => true
            | some _ => false
          else true
        | _ => true)
    | some (.obj _) => true
    | some (.str _) => true
    | some _ => false
  | _ => false

/-! ### Helper lemmas -/

theorem find_replace_same (k : String) (v : PyJson) :
    ∀ kvs : List (String × PyJson), kvs.any (fun kv => kv.1 = k) = true →
      (kvs.map (fun kv => if kv.1 = k then (k, v) else kv)).find?
        (fun kv => kv.1 = k) = some (k, v) := by
  intro kvs h
  induction kvs with
  | nil => simp at h
  | cons a rest ih =>
    by_cases ha : a.1 = k
    · simp [List.find?, ha]
    · simp only [List.any_cons, Bool.or_eq_true, decide_eq_true_eq] at h
      rcases h with h | h
      · exact absurd h ha
      · simp only [List.map_cons, List.find?, ha, if_neg ha]
        simpa [ha] using ih h

theorem find_append_none (k : String) (v : PyJson) :
    ∀ kvs : List (String × PyJson), kvs.any (fun kv => kv.1 = k) = false →
      (kvs ++ [(k, v)]).find? (fun kv => kv.1 = k) = some (k, v) := by
  intro kvs h
  induction kvs with
  | nil => simp [List.find?]
  | cons a rest ih =>
    simp only [List.any_cons, Bool.or_eq_false_iff, decide_eq_false_iff_not] at h
    simp only [List.cons_append, List.find?, decide_eq_false h.1]
    simpa using ih (by simpa using h.2)

theorem objInsert_find_same (kvs : List (String × PyJson)) (k : String) (v : PyJson) :
    (objInsert kvs k v).find? (fun kv => kv.1 = k) = some (k, v) := by
  unfold objInsert
  by_cases h : kvs.any (fun kv => kv.1 = k) = true
  · simp only [h, if_true]
    exact find_replace_same k v kvs h
  · simp only [Bool.not_eq_true] at h
    simp only [h, Bool.false_eq_true, if_false]
    exact find_append_none k v kvs h

theorem find_map_replace_ne (k u : String) (v : PyJson) (h : k ≠ u) :
    ∀ kvs : List (String × PyJson),
      (kvs.map (fun kv => if kv.1 = k then (k, v) else kv)).find?
        (fun kv => kv.1 = u) = kvs.find? (fun kv => kv.1 = u) := by
  intro kvs
  induction kvs with
  | nil => simp
  | cons a rest ih =>
    by_cases ha : a.1 = k
    · have h1 : ¬ ((k, v).1 = u) := h
      have h2 : ¬ (a.1 = u) := by rw [ha]; exact h
      simp only [List.map_cons, if_pos ha]
      rw [List.find?_cons_of_neg _ (by simpa using h1),
          List.find?_cons_of_neg _ (by simpa using h2)]
      exact ih
    · by_cases hu : a.1 = u
      · simp only [List.map_cons, if_neg ha]
        rw [List.find?_cons_of_pos _ (by simpa using hu),
            List.find?_cons_of_pos _ (by simpa using hu)]
      · simp only [List.map_cons, if_neg ha]
        rw [List.find?_cons_of_neg _ (by simpa using hu),
            List.find?_cons_of_neg _ (by simpa using hu)]
        exact ih

theorem find_append_single_ne (k u : String) (v : PyJson) (h : k ≠ u) :
    ∀ kvs : List (String × PyJson),
      (kvs ++ [(k, v)]).find? (fun kv => kv.1 = u) =
        kvs.find? (fun kv => kv.1 = u) := by
  intro kvs
  induction kvs with
  | nil =>
    simp only [List.nil_append]
    rw [List.find?_cons_of_neg _ (by simpa using h)]
  | cons a rest ih =>
    by_cases hu : a.1 = u
    · simp only [List.cons_append]
      rw [List.find?_cons_of_pos _ (by simpa using hu),
          List.find?_cons_of_pos _ (by simpa using hu)]
    · simp only [List.cons_append]
      rw [List.find?_cons_of_neg _ (by simpa using hu),
          List.find?_cons_of_neg _ (by simpa using hu)]
      exact ih

theorem objInsert_find_ne (kvs : List (String × PyJson)) (k : String) (v : PyJson)
    (u : String) (h : k ≠ u) :
    (objInsert kvs k v).find? (fun kv => kv.1 = u) =
      kvs.find? (fun kv => kv.1 = u) := by
  unfold objInsert
  by_cases hany : kvs.any (fun kv => kv.1 = k) = true
  · simp only [hany, if_true]
    exact find_map_replace_ne k u v h kvs
  · simp only [Bool.not_eq_true] at hany
    simp only [hany, Bool.false_eq_true, if_false]
    exact find_append_single_ne k u v h kvs

theorem get_jsonSet_same (kvs : List (String × PyJson)) (k : String) (v : PyJson) :
    (jsonSet (.obj kvs) k v).get k = some v := by
  simp [jsonSet, PyJson.get, objInsert_find_same]

theorem get_jsonSet_ne (j : PyJson) (k : String) (v : PyJson) (u : String)
    (h : k ≠ u) : (jsonSet j k v).get u = j.get u := by
  cases j <;> simp [jsonSet, PyJson.get]
  exact congrArg (Option.map _) (objInsert_find_ne _ k v u h)

theorem jsonSet_isObj (kvs : List (String × PyJson)) (k : String) (v : PyJson) :
    ∃ kvs', jsonSet (.obj kvs) k v = .obj kvs' := by
  unfold jsonSet objInsert
  by_cases h : kvs.any (fun kv => kv.1 = k) = true <;> simp [h]

theorem get_jsonUpdate_ne (entries : List (String × PyJson)) (u : String)
    (h : ∀ e ∈ entries, e.1 ≠ u) :
    ∀ j : PyJson, (jsonUpdate j entries).get u = j.get u := by
  induction entries with
  | nil => intro j; simp [jsonUpdate]
  | cons e rest ih =>
    intro j
    have : (jsonUpdate j (e :: rest)) = jsonUpdate (jsonSet j e.1 e.2) rest := by
      simp [jsonUpdate]
    rw [this, ih (fun x hx => h x (List.mem_cons_of_mem _ hx))]
    exact get_jsonSet_ne j e.1 e.2 u (h e (List.mem_cons_self _ _))

theorem str_eq_empty_iff_data (s : String) : s = "" ↔ s.data = [] := by
  constructor
  · intro h; subst h; rfl
  · intro h; cases s with
    | mk d => simp at h; subst h; rfl

theorem str_data_append (a b : String) : (a ++ b).data = a.data ++ b.data := rfl

theorem append_ne_empty_left (a b : String) (h : a ≠ "") : a ++ b ≠ "" := by
  intro hab
  rw [str_eq_empty_iff_data, str_data_append, List.append_eq_nil] at hab
  exact h ((str_eq_empty_iff_data a).mpr hab.1)

theorem append_ne_empty_right (a b : String) (h : b ≠ "") : a ++ b ≠ "" := by
  intro hab
  rw [str_eq_empty_iff_data, str_data_append, List.append_eq_nil] at hab
  exact h ((str_eq_empty_iff_data b).mpr hab.2)

theorem pyJoin_ne_empty (sep : String) :
    ∀ l : List String, ∀ s ∈ l, s ≠ "" → pyJoin sep l ≠ "" := by
  intro l
  induction l with
  | nil => intro s hs; simp at hs
  | cons x rest ih =>
    intro s hs hne
    rcases List.mem_cons.mp hs with h | h
    · subst h
      cases rest with
      | nil => simpa [pyJoin] using hne
      | cons y ys => simpa [pyJoin] using append_ne_empty_left _ _ (append_ne_empty_left _ _ hne)
    · cases rest with
      | nil => simp at h
      | cons y ys =>
        have htail : pyJoin sep (y :: ys) ≠ "" := ih s h hne
        show x ++ sep ++ pyJoin sep (y :: ys) ≠ ""
        exact append_ne_empty_right _ _ htail

/-! ### Claim C1 — JSON extraction robustness -/

/-- C1 (counterexample): the claim asserts that on input (d) — a text
with an unterminated `<think>` tag followed by a valid JSON object —
`_extract_json` returns a string parsing to the expected object.  It
does not: the unterminated-tag substitution strips from `<think>` to the
end of the string, JSON included, and the extractor returns `None`. -/
theorem C1_unterminated_think_returns_none :
    extractJson "<think>reasoning \x7b\"a\": 1\x7d" = none := rfl

/-- C1 (amended): on inputs (a) a fenced ```json block, (b) an object
surrounded by text, and (c) a nested object with trailing junk,
`_extract_json` returns a string that parses to the expected object; on
input (d), an unterminated `<think>` tag followed by a valid JSON
object, the think-tag stripping removes everything from the tag to the
end of the string and the extractor returns `None`. -/
theorem C1_extract_json_cases :
    (extractJson "```json\n\x7b\"a\":1\x7d\n```" = some "\x7b\"a\":1\x7d" ∧
      jsonLoads "\x7b\"a\":1\x7d" = some (PyJson.obj [("a", PyJson.ofNat 1)])) ∧
    (extractJson "blah \x7b\"a\":1\x7d blah" = some "\x7b\"a\":1\x7d") ∧
    (extractJson "\x7b\"a\": \x7b\"b\": 1\x7d\x7d trailing junk" =
        some "\x7b\"a\": \x7b\"b\": 1\x7d\x7d" ∧
      jsonLoads "\x7b\"a\": \x7b\"b\": 1\x7d\x7d" =
        some (PyJson.obj [("a", PyJson.obj [("b", PyJson.ofNat 1)])])) ∧
    extractJson "<think>I will output JSON now:\n\x7b\"a\": 1\x7d" = none :=
  ⟨⟨rfl, rfl⟩, rfl, ⟨rfl, rfl⟩, rfl⟩

/-! ### Claim C8 — fast-path SQL cleanup -/

/-- C8: for the raw model response `"```sql\nSELECT \"sym\" FROM
daily\n```"` (wrapping quotes, sql fence, backslash-escaped inner
quotes), the fast-path cleanup of `simple_chat_query` produces exactly
`SELECT "sym" FROM daily` — no fences, escapes, wrapping quotes or
surrounding whitespace — and that string is what is passed to the query
tool. -/
theorem C8_sql_cleanup :
    simpleChatCleanSql "\"```sql\nSELECT \\\"sym\\\" FROM daily\n```\"" =
      some "SELECT \"sym\" FROM daily" := rfl

/-! ### Claim C2 — symbol-column selection -/

/-- C2 (counterexample): the claim says columns are matched by
case-insensitive substring against the pattern list.  The code uses
exact membership of the lowercased name: column `symbols` contains the
patterns `sym`/`symbol` as substrings, yet with it as the only column
the prober issues no distinct-values query at all (its only probe is
the row-count query). -/
theorem C2_substring_match_fails :
    matchingColumns DEFAULT_SYMBOL_PATTERNS ["symbols"] = [] ∧
    specSubstringMatchColumns DEFAULT_SYMBOL_PATTERNS ["symbols"] = ["symbols"] ∧
    (probeTable {} (fun _ => PyJson.obj [("isError", PyJson.bool true)]) "t"
        ["symbols"]).2.filterMap
      (fun e => match e.1 with
        | Probe.distinctSymbols c => some c
        | _ => none) = [] :=
  ⟨rfl, rfl, rfl⟩

/-! ### Claim C6 — tool failures become data -/

/-- C6 (counterexample): the claim says a result with `is_error=true`
whose content contains text items carries a non-empty error string.
When the only text item's text is the empty string, `call_tool` sets
`error` to `" ".join([""]) = ""` — present but empty. -/
theorem C6_empty_text_empty_error :
    (callTool (Except.ok (RawResult.mcpObj (some true)
        (some [⟨some "", none, none, "CallToolResult"⟩]) (some PyJson.null) "r"))
      "kdbx_run_sql_query" (PyJson.obj [])).get "error" = some (PyJson.str "") ∧
    (callTool (Except.ok (RawResult.mcpObj (some true)
        (some [⟨some "", none, none, "CallToolResult"⟩]) (some PyJson.null) "r"))
      "kdbx_run_sql_query" (PyJson.obj [])).get "isError" = some (PyJson.bool true) ∧
    (callTool (Except.ok (RawResult.mcpObj (some true)
        (some [⟨some "", none, none, "CallToolResult"⟩]) (some PyJson.null) "r"))
      "kdbx_run_sql_query" (PyJson.obj [])).get "content" =
      some (PyJson.arr [PyJson.obj [("type", PyJson.str "text"),
                                    ("text", PyJson.str "")]]) :=
  ⟨rfl, rfl, rfl⟩

/-! ### Claim C9 — forced schema refresh -/

/-- C9 (counterexample): the claim says `refresh_schema` clears the
cached SQL guidance along with the other derived state.  It does not
touch `_sql_guidance`: after a full refresh against a server whose
resources categorize as schema only, guidance cached in an earlier
cycle survives unchanged. -/
theorem C9_sql_guidance_survives :
    (refreshSchema
      ⟨[PyJson.obj [("uri", PyJson.str "res://tables"),
                    ("name", PyJson.str "table schema"),
                    ("description", PyJson.str "tables and columns"),
                    ("mimeType", PyJson.str "text/plain"),
                    ("annotations", PyJson.obj [])]],
        fun _ => "TABLE ANALYSIS: daily",
        fun _ _ => PyJson.obj []⟩
      ⟨[], [], "old schema text", "OLD GUIDANCE", [("note", "v")],
        [("daily", PyJson.obj [])], true⟩).sqlGuidance = "OLD GUIDANCE" := rfl

/-! ### Claim C5 — accumulation across iterations -/

/-- C5 (counterexample): the claim says every executed step's result
appears in the tool-result list returned with the final answer.  When a
later iteration's plan declares `data_available=false`, the loop
returns `(answer, [])`, discarding the step results executed in earlier
iterations: here one step ran, yet the returned list is empty. -/
theorem C5_later_no_data_discards_results :
    (intelligentQuery
      (fun i _ => if i = 0 then
          PyJson.obj [("steps", PyJson.arr [PyJson.obj
            [("tool", PyJson.str "kdbx_describe_tables"),
             ("arguments", PyJson.obj []),
             ("purpose", PyJson.str "discover schema")]])]
        else
          PyJson.obj [("data_available", PyJson.bool false),
            ("reasoning", PyJson.str "R"), ("limitations", PyJson.str "L"),
            ("steps", PyJson.arr [])])
      (fun _ _ => PyJson.obj [("isError", PyJson.bool false),
        ("content", PyJson.arr [PyJson.obj [("type", PyJson.str "text"),
                                            ("text", PyJson.str "TABLE x")]])])
      (fun _ => "synthesized") 3).returned = [] ∧
    (intelligentQuery
      (fun i _ => if i = 0 then
          PyJson.obj [("steps", PyJson.arr [PyJson.obj
            [("tool", PyJson.str "kdbx_describe_tables"),
             ("arguments", PyJson.obj []),
             ("purpose", PyJson.str "discover schema")]])]
        else
          PyJson.obj [("data_available", PyJson.bool false),
            ("reasoning", PyJson.str "R"), ("limitations", PyJson.str "L"),
            ("steps", PyJson.arr [])])
      (fun _ _ => PyJson.obj [("isError", PyJson.bool false),
        ("content", PyJson.arr [PyJson.obj [("type", PyJson.str "text"),
                                            ("text", PyJson.str "TABLE x")]])])
      (fun _ => "synthesized") 3).executed.length = 1 :=
  ⟨rfl, rfl⟩

/-! ### Claim C3 — data_available=false short-circuits -/

/-- C3: on an initialized client, if the planner's first plan is
`{"data_available": false, "reasoning": "R", "limitations": "L",
"steps": []}`, `intelligent_query` returns `("R\n\nL", [])` and calls
no tool; with the limitations key absent, or present but empty, the
answer is the reasoning string alone. -/
theorem C3_data_unavailable (callT : PyJson → PyJson → PyJson)
    (synthO : List PyJson → String) (mi : Nat) (hmi : 1 ≤ mi) :
    (∀ plannerO : Nat → String → PyJson,
      plannerO 0 "" = PyJson.obj [("data_available", PyJson.bool false),
        ("reasoning", PyJson.str "R"), ("limitations", PyJson.str "L"),
        ("steps", PyJson.arr [])] →
      intelligentQuery plannerO callT synthO mi =
        ⟨.noData, "R\n\nL", [], [], [""], []⟩) ∧
    (∀ plannerO : Nat → String → PyJson,
      plannerO 0 "" = PyJson.obj [("data_available", PyJson.bool false),
        ("reasoning", PyJson.str "R"), ("steps", PyJson.arr [])] →
      intelligentQuery plannerO callT synthO mi =
        ⟨.noData, "R", [], [], [""], []⟩) ∧
    (∀ plannerO : Nat → String → PyJson,
      plannerO 0 "" = PyJson.obj [("data_available", PyJson.bool false),
        ("reasoning", PyJson.str "R"), ("limitations", PyJson.str ""),
        ("steps", PyJson.arr [])] →
      intelligentQuery plannerO callT synthO mi =
        ⟨.noData, "R", [], [], [""], []⟩) := by
  cases mi with
  | zero => exact absurd hmi (by omega)
  | succ m =>
    refine ⟨fun plannerO h => ?_, fun plannerO h => ?_, fun plannerO h => ?_⟩ <;>
      simp [intelligentQuery, iqLoop, h, PyJson.get, PyJson.getD, PyJson.truthy,
        PyJson.pyStr, List.find?, dataAvailableIsFalse]

/-- C3 (witness): the theorem applied at a concrete planner for each of
the three limitation shapes. -/
theorem C3_data_unavailable_witness :
    intelligentQuery
      (fun _ _ => PyJson.obj [("data_available", PyJson.bool false),
        ("reasoning", PyJson.str "R"), ("limitations", PyJson.str "L"),
        ("steps", PyJson.arr [])])
      (fun _ _ => PyJson.obj []) (fun _ => "") 3 =
      ⟨.noData, "R\n\nL", [], [], [""], []⟩ ∧
    intelligentQuery
      (fun _ _ => PyJson.obj [("data_available", PyJson.bool false),
        ("reasoning", PyJson.str "R"), ("steps", PyJson.arr [])])
      (fun _ _ => PyJson.obj []) (fun _ => "") 3 =
      ⟨.noData, "R", [], [], [""], []⟩ ∧
    intelligentQuery
      (fun _ _ => PyJson.obj [("data_available", PyJson.bool false),
        ("reasoning", PyJson.str "R"), ("limitations", PyJson.str ""),
        ("steps", PyJson.arr [])])
      (fun _ _ => PyJson.obj []) (fun _ => "") 3 =
      ⟨.noData, "R", [], [], [""], []⟩ :=
  ⟨(C3_data_unavailable _ _ 3 (by omega)).1 _ rfl,
   (C3_data_unavailable _ _ 3 (by omega)).2.1 _ rfl,
   (C3_data_unavailable _ _ 3 (by omega)).2.2 _ rfl⟩

theorem discoverSchemaViaTools_preserves (callT : String → PyJson → PyJson)
    (s : ClientState) :
    (discoverSchemaViaTools callT s).dataContent = s.dataContent ∧
    (discoverSchemaViaTools callT s).dataContentDiscovered = s.dataContentDiscovered := by
  unfold discoverSchemaViaTools
  split
  · exact ⟨rfl, rfl⟩
  · dsimp only
    split <;> exact ⟨rfl, rfl⟩

theorem discoverSchema_preserves (env : SchemaEnv) (s : ClientState) :
    (discoverSchema env s).dataContent = s.dataContent ∧
    (discoverSchema env s).dataContentDiscovered = s.dataContentDiscovered := by
  unfold discoverSchema
  by_cases h : env.serverResources.isEmpty
  · rw [if_neg (by simpa using h)]
    exact discoverSchemaViaTools_preserves env.callT s
  · rw [if_pos (by simpa using h)]
    dsimp only
    constructor <;> (repeat' split) <;> rfl

/-- C9 (amended): a forced refresh clears the schema text, the
additional-context map, the data-content cache and its discovered flag
before re-running discovery, and discovery never repopulates the
data-content cache or its flag; the cached SQL guidance, however, is
not among the cleared fields. -/
theorem C9_refresh_clears (env : SchemaEnv) (s : ClientState) :
    (refreshSchema env s).dataContent = [] ∧
    (refreshSchema env s).dataContentDiscovered = false ∧
    refreshSchema env s = discoverSchema env
      { s with
        schemaDescription := "",
        additionalContext := [],
        dataContent := [],
        dataContentDiscovered := false } := by
  refine ⟨?_, ?_, rfl⟩
  · exact (discoverSchema_preserves env _).1
  · exact (discoverSchema_preserves env _).2

theorem probeCountStage_shape (exec : String → PyJson) (table : String) (info : PyJson)
    (hcount : extractSingleValue (exec ("SELECT COUNT(*) as row_count FROM " ++ table))
        "row_count" ≠ Except.error ()) :
    ∃ info1, probeCountStage exec table info =
      (.ok info1, [(Probe.countRows, "SELECT COUNT(*) as row_count FROM " ++ table)]) := by
  unfold probeCountStage
  dsimp only
  by_cases herr : resultHasError (exec ("SELECT COUNT(*) as row_count FROM " ++ table))
  · exact ⟨info, by simp [herr]⟩
  · rcases hval : extractSingleValue (exec ("SELECT COUNT(*) as row_count FROM " ++ table))
        "row_count" with a | o
    · exact absurd hval hcount
    · cases o with
      | none => exact ⟨info, by simp [herr, hval]⟩
      | some v => exact ⟨jsonSet info "row_count" v, by simp [herr, hval]⟩

theorem probeSymbolsStage_events (exec : String → PyJson) (table : String)
    (c₀ : String) (r : List String) (info : PyJson) :
    (probeSymbolsStage exec table (c₀ :: r) info).2 =
      [(Probe.distinctSymbols c₀,
        "SELECT DISTINCT " ++ c₀ ++ " FROM " ++ table ++ " LIMIT 100")] := by
  unfold probeSymbolsStage
  dsimp only
  split
  · split <;> rfl
  · rfl

theorem probeDateStage_no_sym (exec : String → PyJson) (table : String)
    (dcols : List String) (info : PyJson) :
    (probeDateStage exec table dcols info).2.filterMap
      (fun e => match e.1 with
        | Probe.distinctSymbols c => some c
        | _ => none) = [] := by
  unfold probeDateStage
  cases dcols with
  | nil => rfl
  | cons d ds =>
    dsimp only
    split
    · split
      · rfl
      · split <;> rfl
    · rfl

theorem probeTextStage_no_sym (exec : String → PyJson) (table : String)
    (tcols dcols : List String) (info : PyJson) :
    (probeTextStage exec table tcols dcols info).2.filterMap
      (fun e => match e.1 with
        | Probe.distinctSymbols c => some c
        | _ => none) = [] := by
  unfold probeTextStage
  cases tcols with
  | nil => rfl
  | cons t ts =>
    dsimp only
    split
    · split <;> rfl
    · rfl

/-- C2 (amended): among a probed table's columns (schema-provided, hence
non-empty here), the data-content prober issues exactly one
distinct-values query, on the first column (in column order) whose
lowercased name is exactly equal to a configured symbol-name pattern;
further matching columns are not probed.  (The row-count extraction is
assumed not to raise, since an uncaught extraction exception aborts the
whole table.) -/
theorem C2_first_symbol_column (pats : Patterns) (exec : String → PyJson)
    (table : String) (columns : List String) (c₀ : String) (rest : List String)
    (hsym : matchingColumns pats.symbolPatterns columns = c₀ :: rest)
    (hcount : extractSingleValue (exec ("SELECT COUNT(*) as row_count FROM " ++ table))
        "row_count" ≠ Except.error ()) :
    (probeTable pats exec table columns).2.filterMap
      (fun e => match e.1 with
        | Probe.distinctSymbols c => some c
        | _ => none) = [c₀] := by
  cases columns with
  | nil => simp [matchingColumns] at hsym
  | cons c cs =>
    unfold probeTable
    have hcol : probeColumnsStage exec table (c :: cs) =
        (.ok (PyJson.obj [("columns", .arr ((c :: cs).map .str))], c :: cs), []) := by
      unfold probeColumnsStage; simp
    rw [hcol]
    dsimp only
    obtain ⟨info1, hc⟩ := probeCountStage_shape exec table
      (PyJson.obj [("columns", .arr ((c :: cs).map .str))]) hcount
    rw [hc]
    dsimp only
    rw [hsym]
    rcases hs : probeSymbolsStage exec table (c₀ :: rest) info1 with ⟨info2, sevs⟩
    have hsevs : sevs = [(Probe.distinctSymbols c₀,
        "SELECT DISTINCT " ++ c₀ ++ " FROM " ++ table ++ " LIMIT 100")] := by
      have := probeSymbolsStage_events exec table c₀ rest info1
      rw [hs] at this; exact this
    rcases hd : probeDateStage exec table (matchingColumns pats.datePatterns (c :: cs)) info2
      with ⟨dres, devs⟩
    have hdevs : devs.filterMap (fun e => match e.1 with
        | Probe.distinctSymbols c => some c
        | _ => none) = [] := by
      have := probeDateStage_no_sym exec table (matchingColumns pats.datePatterns (c :: cs)) info2
      rw [hd] at this; exact this
    cases dres with
    | error a =>
      simp [hsevs, List.filterMap_append, hdevs]
    | ok info3 =>
      dsimp only
      split <;> simp [hsevs, List.filterMap_append, hdevs, probeTextStage_no_sym]

/-- C2 (witness): the amended theorem at a concrete table whose columns
`["date", "sym", "ticker"]` contain two exact symbol-pattern matches;
only `sym`, the first, is probed for distinct values. -/
theorem C2_first_symbol_column_witness :
    (probeTable {} (fun _ => PyJson.obj [("isError", PyJson.bool true)]) "trades"
        ["date", "sym", "ticker"]).2.filterMap
      (fun e => match e.1 with
        | Probe.distinctSymbols c => some c
        | _ => none) = ["sym"] :=
  C2_first_symbol_column {} (fun _ => PyJson.obj [("isError", PyJson.bool true)])
    "trades" ["date", "sym", "ticker"] "sym" ["ticker"] rfl
    (fun h => Except.noConfusion h)

theorem discoverLoop_lookup_congr (pats : Patterns) (exec : String → PyJson) (u : String) :
    ∀ tbls (cache₁ cache₂ : List (String × PyJson)),
      cache₁.find? (fun e => e.1 = u) = cache₂.find? (fun e => e.1 = u) →
      (discoverLoop pats exec tbls cache₁).find? (fun e => e.1 = u) =
        (discoverLoop pats exec tbls cache₂).find? (fun e => e.1 = u) := by
  intro tbls
  induction tbls with
  | nil => intro c1 c2 h; simpa [discoverLoop] using h
  | cons t rest ih =>
    intro c1 c2 h
    rcases t with ⟨tn, tcs⟩
    unfold discoverLoop
    cases (probeTable pats exec tn tcs).1 with
    | none => exact ih c1 c2 h
    | some info =>
      apply ih
      by_cases htu : tn = u
      · subst htu; rw [objInsert_find_same, objInsert_find_same]
      · rw [objInsert_find_ne _ _ _ _ htu, objInsert_find_ne _ _ _ _ htu]
        exact h

/-- Concrete query oracle for the C7 witness: the row-count query
errors, every other query returns one `sym` value. -/
def c7exec : String → PyJson := fun q =>
  if q = "SELECT COUNT(*) as row_count FROM daily" then
    PyJson.obj [("isError", PyJson.bool true)]
  else
    PyJson.obj [("isError", PyJson.bool false),
      ("content", PyJson.arr [PyJson.obj [("type", PyJson.str "text"),
        ("text", PyJson.str "\x7b\"data\": [\x7b\"sym\": \"AAPL\"\x7d]\x7d")]])]

/-- C7: if a table's row-count query errors but its symbol
distinct-values query succeeds, the per-table probe still stores the
table with `symbols` and `symbol_column` populated, `row_count` absent
and the columns preserved (here with no date- or text-pattern columns,
whose probes are then not issued); and no matter what happens while
probing one table, the cache entry every other table ends up with is
unchanged. -/
theorem C7_partial_probe (pats : Patterns) (exec : String → PyJson) (table : String)
    (cs : List String) (c₀ : String) (rest : List String) (vs : List PyJson)
    (hsym : matchingColumns pats.symbolPatterns cs = c₀ :: rest)
    (hdate : matchingColumns pats.datePatterns cs = [])
    (htext : matchingColumns pats.textPatterns cs = [])
    (hcount : resultHasError (exec ("SELECT COUNT(*) as row_count FROM " ++ table)) = true)
    (hsymres : resultHasError
      (exec ("SELECT DISTINCT " ++ c₀ ++ " FROM " ++ table ++ " LIMIT 100")) = false)
    (hvals : extractColumnValues
      (exec ("SELECT DISTINCT " ++ c₀ ++ " FROM " ++ table ++ " LIMIT 100")) c₀ = vs)
    (hvs : vs ≠ []) :
    (∃ info, (probeTable pats exec table cs).1 = some info ∧
      info.get "symbols" = some (.arr vs) ∧
      info.get "symbol_column" = some (.str c₀) ∧
      info.get "row_count" = none ∧
      info.get "columns" = some (.arr (cs.map .str))) ∧
    (∀ (tbls : List (String × List String)) (cache : List (String × PyJson)) (u : String),
      u ≠ table →
      (discoverLoop pats exec ((table, cs) :: tbls) cache).find? (fun e => e.1 = u) =
        (discoverLoop pats exec tbls cache).find? (fun e => e.1 = u)) := by
  constructor
  · cases cs with
    | nil => simp [matchingColumns] at hsym
    | cons c cs' =>
      unfold probeTable
      have hcol : probeColumnsStage exec table (c :: cs') =
          (.ok (PyJson.obj [("columns", .arr ((c :: cs').map .str))], c :: cs'), []) := by
        unfold probeColumnsStage; simp
      rw [hcol]
      dsimp only
      have hc : probeCountStage exec table (PyJson.obj [("columns", .arr ((c :: cs').map .str))]) =
          (.ok (PyJson.obj [("columns", .arr ((c :: cs').map .str))]),
           [(Probe.countRows, "SELECT COUNT(*) as row_count FROM " ++ table)]) := by
        unfold probeCountStage; simp [hcount]
      rw [hc]
      dsimp only
      rw [hsym, hdate, htext]
      have hsstage : probeSymbolsStage exec table (c₀ :: rest)
          (PyJson.obj [("columns", .arr ((c :: cs').map .str))]) =
          (jsonSet (jsonSet (PyJson.obj [("columns", .arr ((c :: cs').map .str))])
            "symbols" (.arr vs)) "symbol_column" (.str c₀),
           [(Probe.distinctSymbols c₀,
             "SELECT DISTINCT " ++ c₀ ++ " FROM " ++ table ++ " LIMIT 100")]) := by
        unfold probeSymbolsStage
        simp [hsymres, hvals, hvs]
      rw [hsstage]
      dsimp only [probeDateStage, probeTextStage]
      have hguard : (((jsonSet (jsonSet (PyJson.obj [("columns", .arr ((c :: cs').map .str))])
          "symbols" (.arr vs)) "symbol_column" (.str c₀)).getD "columns" .null).truthy) = true := by
        unfold PyJson.getD
        rw [get_jsonSet_ne _ _ _ _ (by decide), get_jsonSet_ne _ _ _ _ (by decide)]
        simp [PyJson.get, List.find?, PyJson.truthy]
      rw [if_pos hguard]
      obtain ⟨kvs1, h1⟩ := jsonSet_isObj
        [("columns", PyJson.arr ((c :: cs').map PyJson.str))] "symbols" (.arr vs)
      refine ⟨_, rfl, ?_, ?_, ?_, ?_⟩
      · rw [get_jsonSet_ne _ _ _ _ (by decide), get_jsonSet_same]
      · rw [h1, get_jsonSet_same]
      · rw [get_jsonSet_ne _ _ _ _ (by decide), get_jsonSet_ne _ _ _ _ (by decide)]
        simp [PyJson.get, List.find?]
      · rw [get_jsonSet_ne _ _ _ _ (by decide), get_jsonSet_ne _ _ _ _ (by decide)]
        simp [PyJson.get, List.find?]
  · intro tbls cache u hu
    rw [show discoverLoop pats exec ((table, cs) :: tbls) cache =
      (match (probeTable pats exec table cs).1 with
       | some info => discoverLoop pats exec tbls (objInsert cache table info)
       | none => discoverLoop pats exec tbls cache) from rfl]
    cases (probeTable pats exec table cs).1 with
    | none => rfl
    | some info =>
      exact discoverLoop_lookup_congr pats exec u tbls _ _
        (objInsert_find_ne _ _ _ _ (Ne.symm hu))

/-- C7 (witness): the theorem applied to a concrete two-column table
whose count query errors while the distinct-symbols query returns one
value. -/
theorem C7_partial_probe_witness :
    ((probeTable {} c7exec "daily" ["sym", "price"]).1.map
      (fun info => (info.get "symbols", info.get "symbol_column",
                    info.get "row_count"))) =
      some (some (PyJson.arr [PyJson.str "AAPL"]), some (PyJson.str "sym"), none) := by
  obtain ⟨info, h1, h2, h3, h4, h5⟩ :=
    (C7_partial_probe {} c7exec "daily" ["sym", "price"] "sym" [] [PyJson.str "AAPL"]
      rfl rfl rfl rfl rfl rfl (by simp)).1
  rw [h1]
  simp [h2, h3, h4]

theorem dateInfoOfRow_keys (row : PyJson) (l : List (String × PyJson))
    (h : dateInfoOfRow row = .ret l) :
    ∀ kv ∈ l, kv.1 = "date_range" ∨ kv.1 = "row_count" := by
  unfold dateInfoOfRow at h
  split at h
  · cases h
  · cases h
  · split at h
    · dsimp only at h
      split at h <;>
        (rcases h with ⟨⟩
         intro kv hkv
         split at hkv <;> simp at hkv <;>
           rcases hkv with rfl | rfl <;> simp)
    · split at h
      · cases h
      · split at h
        · cases h
        · rcases h with ⟨⟩
          intro kv hkv
          simp at hkv
  · cases h

theorem extractDateRange_keys (result : PyJson) (l : List (String × PyJson))
    (h : extractDateRange result = .ok l) :
    ∀ kv ∈ l, kv.1 = "date_range" ∨ kv.1 = "row_count" := by
  unfold extractDateRange at h
  generalize contentItems result = items at h
  induction items with
  | nil =>
    rcases h with ⟨⟩
    intro kv hkv
    simp at hkv
  | cons item rest ih =>
    rw [extractDateRange.go] at h
    split at h
    · split at h
      · split at h
        · cases h
        · exact ih h
        · split at h
          · rcases h with ⟨⟩
            apply dateInfoOfRow_keys
            assumption
          · exact ih h
          · cases h
      · exact ih h
    · exact ih h

theorem probeColumnsStage_columns (exec : String → PyJson) (table : String)
    (cs : List String) (i : PyJson) (cols : List String)
    (h : (probeColumnsStage exec table cs).1 = .ok (i, cols)) :
    ∃ l, i.get "columns" = some (.arr l) := by
  unfold probeColumnsStage at h
  split at h
  · dsimp only at h
    split at h
    · cases h
    · split at h <;> rcases h with ⟨⟩
      · exact ⟨_, get_jsonSet_same _ _ _⟩
      · exact ⟨cs.map PyJson.str, by simp [PyJson.get, List.find?]⟩
  · rcases h with ⟨⟩
    exact ⟨cs.map PyJson.str, by simp [PyJson.get, List.find?]⟩

theorem probeCountStage_columns (exec : String → PyJson) (table : String)
    (i i1 : PyJson) (h : (probeCountStage exec table i).1 = .ok i1) :
    i1.get "columns" = i.get "columns" := by
  unfold probeCountStage at h
  dsimp only at h
  split at h
  · split at h
    · cases h
    · rcases h with ⟨⟩
      exact get_jsonSet_ne _ _ _ _ (by decide)
    · rcases h with ⟨⟩; rfl
  · rcases h with ⟨⟩; rfl

theorem probeSymbolsStage_columns (exec : String → PyJson) (table : String)
    (scols : List String) (i : PyJson) :
    (probeSymbolsStage exec table scols i).1.get "columns" = i.get "columns" := by
  unfold probeSymbolsStage
  cases scols with
  | nil => rfl
  | cons c cs =>
    dsimp only
    split
    · split
      · dsimp only
        rw [get_jsonSet_ne _ _ _ _ (by decide), get_jsonSet_ne _ _ _ _ (by decide)]
      · rfl
    · rfl

theorem probeDateStage_columns (exec : String → PyJson) (table : String)
    (dcols : List String) (i i3 : PyJson)
    (h : (probeDateStage exec table dcols i).1 = .ok i3) :
    i3.get "columns" = i.get "columns" := by
  unfold probeDateStage at h
  cases dcols with
  | nil => rcases h with ⟨⟩; rfl
  | cons d ds =>
    dsimp only at h
    split at h
    · split at h
      · cases h
      · split at h <;> rcases h with ⟨⟩
        · rw [get_jsonSet_ne _ _ _ _ (by decide)]
          exact get_jsonUpdate_ne _ _
            (fun kv hkv => by
              rcases extractDateRange_keys _ _ (by assumption) kv hkv with h' | h' <;>
                simp [h']) i
        · rfl
    · rcases h with ⟨⟩; rfl

theorem probeTextStage_columns (exec : String → PyJson) (table : String)
    (tcols dcols : List String) (i : PyJson) :
    (probeTextStage exec table tcols dcols i).1.get "columns" = i.get "columns" := by
  unfold probeTextStage
  cases tcols with
  | nil => rfl
  | cons t ts =>
    dsimp only
    split
    · split
      · dsimp only
        rw [get_jsonSet_ne _ _ _ _ (by decide), get_jsonSet_ne _ _ _ _ (by decide)]
      · exact get_jsonSet_ne _ _ _ _ (by decide)
    · exact get_jsonSet_ne _ _ _ _ (by decide)

theorem probeTable_columns (pats : Patterns) (exec : String → PyJson) (table : String)
    (cs : List String) (info : PyJson)
    (h : (probeTable pats exec table cs).1 = some info) :
    ∃ l, info.get "columns" = some (.arr l) ∧ l ≠ [] := by
  unfold probeTable at h
  rcases hc : probeColumnsStage exec table cs with ⟨cres, evs0⟩
  rw [hc] at h
  cases cres with
  | error a => cases h
  | ok p =>
    rcases p with ⟨i0, columns⟩
    dsimp only at h
    rcases hcnt : probeCountStage exec table i0 with ⟨cntres, evs1⟩
    rw [hcnt] at h
    cases cntres with
    | error a => cases h
    | ok i1 =>
      dsimp only at h
      rcases hd : probeDateStage exec table (matchingColumns pats.datePatterns columns)
          (probeSymbolsStage exec table (matchingColumns pats.symbolPatterns columns) i1).1
        with ⟨dres, evs3⟩
      rw [hd] at h
      cases dres with
      | error a => cases h
      | ok i3 =>
        dsimp only at h
        split at h
        · rcases h with ⟨⟩
          obtain ⟨l0, hl0⟩ := probeColumnsStage_columns exec table cs i0 columns
            (by rw [hc])
          have h1 := probeCountStage_columns exec table i0 i1 (by rw [hcnt])
          have h2 := probeSymbolsStage_columns exec table
            (matchingColumns pats.symbolPatterns columns) i1
          have h3 := probeDateStage_columns exec table
            (matchingColumns pats.datePatterns columns) _ i3 (by rw [hd])
          have h4 := probeTextStage_columns exec table
            (matchingColumns pats.textPatterns columns)
            (matchingColumns pats.datePatterns columns) i3
          have hcols : (probeTextStage exec table
              (matchingColumns pats.textPatterns columns)
              (matchingColumns pats.datePatterns columns) i3).1.get "columns" =
              some (.arr l0) := by
            rw [h4, h3, h2, h1, hl0]
          refine ⟨l0, hcols, ?_⟩
          rename_i hguard
          rw [PyJson.getD, hcols] at hguard
          simpa [PyJson.truthy] using hguard
        · cases h

theorem mem_objInsert (cache : List (String × PyJson)) (k : String) (v : PyJson) :
    ∀ e ∈ objInsert cache k v, e = (k, v) ∨ e ∈ cache := by
  intro e he
  unfold objInsert at he
  split at he
  · rcases List.mem_map.mp he with ⟨kv, hkv, hmap⟩
    by_cases hk : kv.1 = k
    · simp [hk] at hmap
      exact Or.inl hmap.symm
    · simp [hk] at hmap
      exact Or.inr (hmap ▸ hkv)
  · rcases List.mem_append.mp he with h | h
    · exact Or.inr h
    · simp at h
      exact Or.inl h

/-- C10: every table entry the data-content prober stores in the cache
has a non-empty columns list — a table whose columns could not be
determined is omitted entirely; the invariant is preserved across runs
starting from any cache that already satisfies it. -/
theorem C10_columns_invariant (pats : Patterns) (exec : String → PyJson) :
    ∀ (tbls : List (String × List String)) (cache : List (String × PyJson)),
      (∀ e ∈ cache, ∃ l, e.2.get "columns" = some (PyJson.arr l) ∧ l ≠ []) →
      ∀ e ∈ discoverLoop pats exec tbls cache,
        ∃ l, e.2.get "columns" = some (PyJson.arr l) ∧ l ≠ [] := by
  intro tbls
  induction tbls with
  | nil => intro cache h; simpa [discoverLoop] using h
  | cons t rest ih =>
    intro cache h
    rcases t with ⟨tn, tcs⟩
    rw [show discoverLoop pats exec ((tn, tcs) :: rest) cache =
      (match (probeTable pats exec tn tcs).1 with
       | some info => discoverLoop pats exec rest (objInsert cache tn info)
       | none => discoverLoop pats exec rest cache) from rfl]
    cases hp : (probeTable pats exec tn tcs).1 with
    | none => exact ih cache h
    | some info =>
      apply ih
      intro e he
      rcases mem_objInsert cache tn info e he with rfl | he'
      · exact probeTable_columns pats exec tn tcs info hp
      · exact h e he'

/-- C10 (witness): the theorem applied to a one-table run over an empty
cache. -/
theorem C10_columns_invariant_witness :
    ((discoverLoop {} (fun _ => PyJson.obj [("isError", PyJson.bool true)])
        [("daily", ["sym", "price"])] []).map
      (fun e => (e.1, e.2.get "columns"))) =
      [("daily", some (PyJson.arr [PyJson.str "sym", PyJson.str "price"]))] := by
  have h := C10_columns_invariant {} (fun _ => PyJson.obj [("isError", PyJson.bool true)])
    [("daily", ["sym", "price"])] [] (by intro e he; cases he)
  rfl

/-- C6 (amended): `call_tool` never propagates a transport failure — it
returns a dict with `isError=true`, `error` equal to the failure's
message and a non-empty content text `Tool execution error: …`; and for
an MCP object result with `isError=true`, whenever the content contains
a text item with non-empty text, the returned dict carries a non-empty
`error` string (the space-join of the text items' texts). -/
theorem C6_error_conversion (toolName : String) (args : PyJson) :
    (∀ msg : String,
      (callTool (.error msg) toolName args).get "isError" = some (.bool true) ∧
      (callTool (.error msg) toolName args).get "error" = some (.str msg) ∧
      (callTool (.error msg) toolName args).get "content" =
        some (.arr [.obj [("type", .str "text"),
                          ("text", .str ("Tool execution error: " ++ msg))]]) ∧
      ("Tool execution error: " ++ msg) ≠ "") ∧
    (∀ (items : List RawItem) (structured : Option PyJson) (strRepr s : String),
      s ≠ "" → (∃ it ∈ items, it.text = some s) →
      ∃ e, (callTool (.ok (.mcpObj (some true) (some items) structured strRepr))
          toolName args).get "error" = some (.str e) ∧ e ≠ "") := by
  refine ⟨fun msg => ⟨rfl, rfl, rfl, append_ne_empty_left _ _ (by decide)⟩, ?_⟩
  rintro items structured strRepr s hs ⟨it, hit, htext⟩
  have hne : (items.map convertItem).isEmpty = false := by
    cases items with
    | nil => cases hit
    | cons a l => rfl
  have hmem : s ∈ errorTexts (items.map convertItem) := by
    unfold errorTexts
    apply List.mem_filterMap.mpr
    refine ⟨convertItem it, List.mem_map_of_mem _ hit, ?_⟩
    unfold convertItem
    rw [htext]
    simp [PyJson.get, List.find?]
  unfold callTool
  dsimp only
  rw [if_pos ⟨rfl, by simp [hne]⟩]
  rw [if_pos (by
    intro hh
    rw [List.isEmpty_iff] at hh
    exact (List.ne_nil_of_mem hmem) hh)]
  obtain ⟨kvs1, e1⟩ := jsonSet_isObj
    [("tool", PyJson.str toolName), ("arguments", args), ("isError", PyJson.bool false)]
    "isError" (PyJson.bool true)
  rw [e1]
  obtain ⟨kvs2, e2⟩ := jsonSet_isObj kvs1 "content" (.arr (items.map convertItem))
  rw [e2]
  refine ⟨pyJoin " " (errorTexts (items.map convertItem)), ?_, ?_⟩
  · cases structured with
    | some sc =>
      dsimp only
      rw [get_jsonSet_ne _ _ _ _ (by decide)]
      exact get_jsonSet_same _ _ _
    | none =>
      dsimp only
      rw [get_jsonSet_ne _ _ _ _ (by decide)]
      exact get_jsonSet_same _ _ _
  · exact pyJoin_ne_empty " " _ s hmem hs

/-- C6 (witness): the theorem applied to a failure with message `boom`
and to an object result carrying one non-empty text item. -/
theorem C6_error_conversion_witness :
    (callTool (Except.error "boom") "t" (PyJson.obj [])).get "error" =
      some (PyJson.str "boom") ∧
    ((callTool (Except.ok (RawResult.mcpObj (some true)
        (some [⟨some "SQL error: bad table", none, none, "r"⟩]) none "r")) "t"
        (PyJson.obj [])).getD "error" PyJson.null).truthy = true := by
  constructor
  · exact ((C6_error_conversion "t" (PyJson.obj [])).1 "boom").2.1
  · obtain ⟨e, he, hne⟩ := (C6_error_conversion "t" (PyJson.obj [])).2
      [⟨some "SQL error: bad table", none, none, "r"⟩] none "r" "SQL error: bad table"
      (by decide) ⟨_, List.mem_singleton.mpr rfl, rfl⟩
    rw [PyJson.getD, he]
    simpa [PyJson.truthy] using hne

open KdbNat

theorem purposeOf_wf (step : PyJson) (h : stepWf step = true) :
    purposeOf step = .ok (purposeStr step) := by
  unfold stepWf at h
  unfold purposeOf purposeStr
  split at h
  · split at h
    · rename_i heq
      rw [heq]
    · rename_i heq
      rw [heq]
    · cases h
  · cases h

theorem stepWf_obj (step : PyJson) (h : stepWf step = true) :
    ∃ kvs, step = .obj kvs := by
  unfold stepWf at h
  split at h
  · rename_i kvs; exact ⟨_, rfl⟩
  · cases h

theorem resultWf_obj (r : PyJson) (h : resultWf r = true) :
    ∃ kvs, r = .obj kvs := by
  unfold resultWf at h
  split at h
  · rename_i kvs; exact ⟨_, rfl⟩
  · cases h

theorem schemaPartsOf_ok (items : List PyJson)
    (hitems : ∀ kvs, PyJson.obj kvs ∈ items → isTextItem (PyJson.obj kvs) = true →
      ((PyJson.obj kvs).get "text" = none ∨
        ∃ s, (PyJson.obj kvs).get "text" = some (.str s))) :
    ∃ parts, schemaPartsOf items = .ok parts := by
  induction items with
  | nil => exact ⟨[], rfl⟩
  | cons it rest ih =>
    obtain ⟨parts, hp⟩ := ih (fun kvs hk => hitems kvs (List.mem_cons_of_mem _ hk))
    cases it with
    | obj kvs =>
      unfold schemaPartsOf
      by_cases hti : isTextItem (PyJson.obj kvs) = true
      · rcases hitems kvs (List.mem_cons_self _ _) hti with hnone | ⟨s, hsome⟩
        · exact ⟨"" :: parts, by simp [hti, hnone, hp, Except.map]⟩
        · exact ⟨s :: parts, by simp [hti, hsome, hp, Except.map]⟩
      · rw [Bool.not_eq_true] at hti
        exact ⟨parts, by simp [hti, hp]⟩
    | str s => exact ⟨s :: parts, by simp [schemaPartsOf, hp, Except.map]⟩
    | null => exact ⟨parts, by simp [schemaPartsOf, hp]⟩
    | bool b => exact ⟨parts, by simp [schemaPartsOf, hp]⟩
    | num a b c d => exact ⟨parts, by simp [schemaPartsOf, hp]⟩
    | arr l => exact ⟨parts, by simp [schemaPartsOf, hp]⟩

theorem resultWf_schemaText (r : PyJson) (h : resultWf r = true) (v : PyJson) :
    ∃ t, schemaTextOfResult (jsonSet r "purpose" v) = .ok t := by
  obtain ⟨kvs, rfl⟩ := resultWf_obj r h
  have hcontent : (jsonSet (PyJson.obj kvs) "purpose" v).get "content" =
      (PyJson.obj kvs).get "content" := get_jsonSet_ne _ _ _ _ (by decide)
  unfold schemaTextOfResult
  rw [hcontent]
  unfold resultWf at h
  rcases hc : (PyJson.obj kvs).get "content" with _ | c
  · exact ⟨"", rfl⟩
  · rw [hc] at h
    cases c with
    | arr items =>
      obtain ⟨parts, hp⟩ := schemaPartsOf_ok items (by
        intro kvs' hmem hti
        have hall := (List.all_eq_true.mp h) _ hmem
        rw [if_pos hti] at hall
        rcases hg : (PyJson.obj kvs').get "text" with _ | w
        · exact Or.inl rfl
        · rw [hg] at hall
          cases w with
          | str s => exact Or.inr ⟨s, rfl⟩
          | null => cases hall
          | bool b => cases hall
          | num a b c d => cases hall
          | arr l => cases hall
          | obj l => cases hall)
      exact ⟨pyJoin "\n" parts, by simp [pyIterable, pyIter, hp, Except.map]⟩
    | obj kvs' =>
      obtain ⟨parts, hp⟩ := schemaPartsOf_ok (kvs'.map (fun kv => PyJson.str kv.1)) (by
        intro kvs'' hmem hti
        rcases List.mem_map.mp hmem with ⟨kv, _, hbad⟩
        cases hbad)
      exact ⟨pyJoin "\n" parts, by simp [pyIterable, pyIter, hp, Except.map]⟩
    | str s =>
      obtain ⟨parts, hp⟩ := schemaPartsOf_ok (s.data.map (fun c => PyJson.str (String.mk [c]))) (by
        intro kvs'' hmem hti
        rcases List.mem_map.mp hmem with ⟨c, _, hbad⟩
        cases hbad)
      exact ⟨pyJoin "\n" parts, by simp [pyIterable, pyIter, hp, Except.map]⟩
    | null => cases h
    | bool b => cases h
    | num a b c d => cases h

theorem str_ext {a b : String} (h : a.data = b.data) : a = b := by
  cases a; cases b; exact congrArg String.mk h

theorem str_append_empty (s : String) : s ++ "" = s :=
  str_ext (by rw [str_data_append]; simp [str_eq_empty_iff_data])

theorem str_append_assoc (a b c : String) : (a ++ b) ++ c = a ++ (b ++ c) :=
  str_ext (by simp [str_data_append])

theorem stepLoop_spec (callT : PyJson → PyJson → PyJson)
    (hcall : ∀ n a, resultWf (callT n a) = true) :
    ∀ (steps : List PyJson) (st : LoopState) (done : Bool),
      (∀ s ∈ steps, stepWf s = true) →
      ∃ st' done', stepLoop callT steps st done = .ok (st', done') ∧
        st'.planArgs = st.planArgs ∧
        st'.allResults.length = st.allResults.length + steps.length ∧
        done' = (done || steps.any (fun s => stepIsDiscovery s)) ∧
        ∃ ext, st'.discovered = st.discovered ++ ext := by
  intro steps
  induction steps with
  | nil =>
    intro st done h
    exact ⟨st, done, rfl, rfl, by simp, by simp, "", (str_append_empty _).symm⟩
  | cons step rest ih =>
    intro st done h
    have hwf := h step (List.mem_cons_self _ _)
    obtain ⟨skvs, hobj⟩ := stepWf_obj step hwf
    subst hobj
    unfold stepLoop
    dsimp only
    rw [purposeOf_wf _ hwf]
    dsimp only
    obtain ⟨rkvs, hr⟩ := resultWf_obj _
      (hcall ((PyJson.obj skvs).getD "tool" .null)
             ((PyJson.obj skvs).getD "arguments" (.obj [])))
    rw [hr]
    dsimp only
    by_cases hdisc : discKeywords.any
        (fun kw => pyContains (pyLower (purposeStr (PyJson.obj skvs))) kw) = true
    · rw [if_pos hdisc]
      by_cases herrt : ((jsonSet (PyJson.obj rkvs) "purpose"
          ((PyJson.obj skvs).getD "purpose" (.str ""))).getD "error" .null).truthy = true
      · rw [if_neg (by simp [herrt])]
        obtain ⟨st', done', hrec, hpa, hlen, hdone, ext, hext⟩ :=
          ih _ true (fun s hs => h s (List.mem_cons_of_mem _ hs))
        refine ⟨st', done', hrec, hpa, by simp at hlen ⊢; omega, ?_, ext, hext⟩
        rw [hdone]
        simp [stepIsDiscovery, hdisc]
      · rw [if_pos (by simp at herrt ⊢; exact herrt)]
        have hwfr : resultWf (PyJson.obj rkvs) = true := hr ▸
          (hcall ((PyJson.obj skvs).getD "tool" .null)
                 ((PyJson.obj skvs).getD "arguments" (.obj [])))
        obtain ⟨t, ht⟩ := resultWf_schemaText (PyJson.obj rkvs) hwfr
          ((PyJson.obj skvs).getD "purpose" (.str ""))
        rw [ht]
        dsimp only
        by_cases htne : t ≠ ""
        · rw [if_pos (by simp [htne])]
          obtain ⟨st', done', hrec, hpa, hlen, hdone, ext, hext⟩ :=
            ih _ true (fun s hs => h s (List.mem_cons_of_mem _ hs))
          refine ⟨st', done', hrec, hpa, by simp at hlen ⊢; omega, ?_, ?_⟩
          · rw [hdone]
            simp [stepIsDiscovery, hdisc]
          · refine ⟨"\n\nDiscovered from " ++
              ((PyJson.obj skvs).getD "tool" PyJson.null).pyStr ++ ":\n" ++ t ++ ext, ?_⟩
            rw [hext]
            dsimp only
            simp [str_append_assoc]
        · rw [if_neg (by simpa using htne)]
          obtain ⟨st', done', hrec, hpa, hlen, hdone, ext, hext⟩ :=
            ih _ true (fun s hs => h s (List.mem_cons_of_mem _ hs))
          refine ⟨st', done', hrec, hpa, by simp at hlen ⊢; omega, ?_, ext, hext⟩
          rw [hdone]
          simp [stepIsDiscovery, hdisc]
    · rw [if_neg hdisc]
      obtain ⟨st', done', hrec, hpa, hlen, hdone, ext, hext⟩ :=
        ih _ done (fun s hs => h s (List.mem_cons_of_mem _ hs))
      refine ⟨st', done', hrec, hpa, by simp at hlen ⊢; omega, ?_, ext, hext⟩
      rw [hdone]
      rw [Bool.not_eq_true] at hdisc
      simp [stepIsDiscovery, hdisc]

/-- A plan for which the loop body always executes steps and re-plans:
not data-unavailable, a non-empty well-formed step list, at least one
schema-discovery step. -/
def planOk (p : PyJson) : Prop :=
  dataAvailableIsFalse p = false ∧
  ∃ steps : List PyJson, p.get "steps" = some (.arr steps) ∧ steps ≠ [] ∧
    (∀ s ∈ steps, stepWf s = true) ∧ (∃ s ∈ steps, stepIsDiscovery s = true)

theorem iqLoop_spec (plannerO : Nat → String → PyJson) (callT : PyJson → PyJson → PyJson)
    (hcall : ∀ n a, resultWf (callT n a) = true)
    (hplan : ∀ i s, planOk (plannerO i s)) :
    ∀ rem, 0 < rem → ∀ iter st,
      ∃ st', iqLoop plannerO callT iter rem st = (.fall, st') ∧
        st'.planArgs.length = st.planArgs.length + rem ∧
        st.allResults.length < st'.allResults.length := by
  intro rem
  induction rem with
  | zero => intro h; omega
  | succ r ih =>
    intro _ iter st
    obtain ⟨hda, steps, hsteps, hne, hwf, hdisc⟩ := hplan iter st.discovered
    have hsl : 0 < steps.length := by
      cases steps with
      | nil => exact absurd rfl hne
      | cons a l => simp
    unfold iqLoop
    dsimp only
    rw [hda]
    rw [if_neg (by simp)]
    have h2 : (plannerO iter st.discovered).getD "steps" PyJson.null = .arr steps := by
      rw [PyJson.getD, hsteps]; rfl
    rw [h2]
    have hie : steps.isEmpty = false := by
      cases steps with
      | nil => exact absurd rfl hne
      | cons a l => rfl
    rw [if_neg (by simp [PyJson.truthy, hie])]
    rw [show stepsIter (PyJson.arr steps) = .ok steps from rfl]
    dsimp only
    obtain ⟨st1, done', hrec, hpa, hlen, hdone, -⟩ :=
      stepLoop_spec callT hcall steps
        { st with planArgs := st.planArgs ++ [st.discovered] } false hwf
    rw [hrec]
    dsimp only
    have hdone' : done' = true := by
      rw [hdone]
      simp only [Bool.false_or]
      exact List.any_eq_true.mpr (by
        obtain ⟨s, hs, hd⟩ := hdisc
        exact ⟨s, hs, hd⟩)
    cases r with
    | zero =>
      rw [if_neg (by simp)]
      refine ⟨st1, rfl, ?_, ?_⟩
      · rw [hpa]; simp
      · rw [hlen]; simp; omega
    | succ r' =>
      rw [if_pos ⟨hdone', by omega⟩]
      obtain ⟨st'', hrec2, hlen2, hpos2⟩ := ih (by omega) (iter + 1) st1
      refine ⟨st'', hrec2, ?_, ?_⟩
      · rw [hlen2, hpa]; simp; omega
      · have : st.allResults.length < st1.allResults.length := by
          rw [hlen]; simp; omega
        omega

/-- C4: when every planning iteration yields a well-formed plan with at
least one schema-discovery step (and tool results the loop can
process), `intelligent_query` makes exactly `max_iterations` planner
calls and then proceeds to synthesis — it neither exceeds the bound nor
loops forever. -/
theorem C4_iteration_bound (plannerO : Nat → String → PyJson)
    (callT : PyJson → PyJson → PyJson) (synthO : List PyJson → String) (mi : Nat)
    (hmi : 1 ≤ mi)
    (hcall : ∀ n a, resultWf (callT n a) = true)
    (hplan : ∀ i s, planOk (plannerO i s)) :
    (intelligentQuery plannerO callT synthO mi).planArgs.length = mi ∧
    (intelligentQuery plannerO callT synthO mi).kind = .synth := by
  obtain ⟨st', hloop, hlen, hpos⟩ :=
    iqLoop_spec plannerO callT hcall hplan mi (by omega) 0 ⟨[], "", [], []⟩
  unfold intelligentQuery
  dsimp only
  rw [hloop]
  dsimp only
  rw [if_neg (by
    intro hie
    rw [List.isEmpty_iff] at hie
    rw [hie] at hpos
    simp at hpos)]
  exact ⟨by simpa using hlen, rfl⟩

/-- Concrete oracles for the C4 witness: every plan has one
schema-discovery step and every tool call yields a text result. -/
def c4step : PyJson :=
  PyJson.obj [("tool", .str "kdbx_describe_tables"), ("arguments", .obj []),
              ("purpose", .str "discover schema")]

def c4planner : Nat → String → PyJson := fun _ _ =>
  PyJson.obj [("reasoning", .str "plan"), ("steps", .arr [c4step])]

def c4call : PyJson → PyJson → PyJson := fun _ _ =>
  PyJson.obj [("isError", .bool false),
    ("content", .arr [PyJson.obj [("type", .str "text"), ("text", .str "TABLE x")]])]

/-- C4 (witness): with such oracles and `max_iterations = 3`, exactly
three planner calls are made and the run ends in synthesis. -/
theorem C4_iteration_bound_witness :
    (intelligentQuery c4planner c4call (fun _ => "ans") 3).planArgs.length = 3 ∧
    (intelligentQuery c4planner c4call (fun _ => "ans") 3).kind = .synth :=
  C4_iteration_bound c4planner c4call (fun _ => "ans") 3 (by omega)
    (fun _ _ => rfl)
    (fun _ _ => ⟨rfl, [c4step], rfl, by simp,
      by intro x hx; rw [List.mem_singleton] at hx; subst hx; rfl,
      ⟨c4step, List.mem_singleton.mpr rfl, rfl⟩⟩)

theorem stepLoop_planArgs (callT : PyJson → PyJson → PyJson) :
    ∀ steps st done st' done',
      stepLoop callT steps st done = .ok (st', done') → st'.planArgs = st.planArgs := by
  intro steps
  induction steps with
  | nil =>
    intro st done st' done' h
    rcases h with ⟨⟩
    rfl
  | cons step rest ih =>
    intro st done st' done' h
    unfold stepLoop at h
    split at h
    · split at h
      · cases h
      · dsimp only at h
        split at h
        · split at h
          · split at h
            · split at h
              · cases h
              · split at h <;> (have hh := ih _ _ _ _ h; exact hh)
            · have hh := ih _ _ _ _ h; exact hh
          · have hh := ih _ _ _ _ h; exact hh
        · cases h
    · cases h

theorem iqLoop_planArgs_extend (plannerO : Nat → String → PyJson)
    (callT : PyJson → PyJson → PyJson) :
    ∀ rem, 0 < rem → ∀ iter st,
      ∃ ext, (iqLoop plannerO callT iter rem st).2.planArgs =
        (st.planArgs ++ [st.discovered]) ++ ext := by
  intro rem
  induction rem with
  | zero => intro h; omega
  | succ r ih =>
    intro _ iter st
    unfold iqLoop
    dsimp only
    split
    · exact ⟨[], by simp⟩
    · split
      · split
        · exact ⟨[], by simp⟩
        · exact ⟨[], by simp⟩
      · split
        · exact ⟨[], by simp⟩
        · rename_i steps heq
          rcases hsl : stepLoop callT steps
              { st with planArgs := st.planArgs ++ [st.discovered] } false with a | p
          · exact ⟨[], by simp⟩
          · rcases p with ⟨st2, done2⟩
            dsimp only
            have hpa2 : st2.planArgs = st.planArgs ++ [st.discovered] :=
              stepLoop_planArgs callT steps _ false st2 done2 hsl
            split
            · rename_i hcond
              cases r with
              | zero => omega
              | succ r' =>
                obtain ⟨ext, hext⟩ := ih (by omega) (iter + 1) st2
                refine ⟨[st2.discovered] ++ ext, ?_⟩
                rw [hext, hpa2]
                simp
            · exact ⟨[], by simp [hpa2]⟩

theorem containsSub_of_infix {t l : List Char} (h : t <:+: l) :
    containsSub l t = true := by
  unfold containsSub
  rcases List.infix_iff_prefix_suffix.mp h with ⟨u, hpre, hsuf⟩
  apply List.any_eq_true.mpr
  refine ⟨u, (List.mem_tails _ _).mpr hsuf, ?_⟩
  simpa [startsWithL] using List.isPrefixOf_iff_prefix.mpr hpre

theorem pyContains_append_suffix (a t : String) : pyContains (a ++ t) t = true := by
  unfold pyContains
  rw [str_data_append]
  exact containsSub_of_infix (List.suffix_append _ _).isInfix

theorem intelligentQuery_planArgs (p : Nat → String → PyJson)
    (c : PyJson → PyJson → PyJson) (s : List PyJson → String) (m : Nat) :
    (intelligentQuery p c s m).planArgs = (iqLoop p c 0 m ⟨[], "", [], []⟩).2.planArgs := by
  unfold intelligentQuery
  dsimp only
  rcases iqLoop p c 0 m ⟨[], "", [], []⟩ with ⟨ex, st⟩
  cases ex with
  | retNoData a => rfl
  | retNoTools a => rfl
  | crash => rfl
  | fall =>
    dsimp only
    split <;> rfl

theorem intelligentQuery_synth_eq (p : Nat → String → PyJson)
    (c : PyJson → PyJson → PyJson) (s : List PyJson → String) (m : Nat) :
    (intelligentQuery p c s m).kind = .synth →
    (intelligentQuery p c s m).returned = (intelligentQuery p c s m).executed := by
  unfold intelligentQuery
  dsimp only
  rcases iqLoop p c 0 m ⟨[], "", [], []⟩ with ⟨ex, st⟩
  cases ex with
  | retNoData a => intro h; cases h
  | retNoTools a => intro h; cases h
  | crash => intro h; cases h
  | fall =>
    dsimp only
    split
    · intro h; cases h
    · intro _; rfl

/-- C5 (amended): schema text discovered by a successful discovery step
is appended to the accumulating discovered-schema string and that string
is passed verbatim as the additional schema of the next planning call
(second planner argument), where it is merged into the prompt so the
discovered text is contained in the combined schema description; and
whenever a run ends in synthesis, the returned tool-result list equals
the list of executed results. (The original claim fails when a later
iteration plans data_available=false: the executed results are then
discarded — see the counterexample.) -/
theorem C5_schema_accumulation (plannerO : Nat → String → PyJson)
    (callT : PyJson → PyJson → PyJson) (synthO : List PyJson → String)
    (mi : Nat) (base : String) (σ : PyJson) (t : String)
    (hmi : 2 ≤ mi)
    (hda : dataAvailableIsFalse (plannerO 0 "") = false)
    (hsteps : (plannerO 0 "").get "steps" = some (.arr [σ]))
    (hwf : stepWf σ = true)
    (hdisc : stepIsDiscovery σ = true)
    (hobjres : ∃ kvs, callT (σ.getD "tool" .null) (σ.getD "arguments" (.obj [])) =
      PyJson.obj kvs)
    (herr : ((jsonSet (callT (σ.getD "tool" .null) (σ.getD "arguments" (.obj [])))
        "purpose" (σ.getD "purpose" (.str ""))).getD "error" .null).truthy = false)
    (htext : schemaTextOfResult
        (jsonSet (callT (σ.getD "tool" .null) (σ.getD "arguments" (.obj [])))
          "purpose" (σ.getD "purpose" (.str ""))) = .ok t)
    (ht : t ≠ "") :
    (intelligentQuery plannerO callT synthO mi).planArgs.get? 1 =
      some ("" ++ "\n\nDiscovered from " ++ (σ.getD "tool" PyJson.null).pyStr ++
        ":\n" ++ t) ∧
    pyContains (combinedSchemaDescription base
      ("" ++ "\n\nDiscovered from " ++ (σ.getD "tool" PyJson.null).pyStr ++
        ":\n" ++ t)) t = true ∧
    (∀ (p : Nat → String → PyJson) (c : PyJson → PyJson → PyJson)
        (s : List PyJson → String) (m : Nat),
      (intelligentQuery p c s m).kind = .synth →
      (intelligentQuery p c s m).returned = (intelligentQuery p c s m).executed) := by
  refine ⟨?_, ?_, fun p c s m => intelligentQuery_synth_eq p c s m⟩
  · obtain ⟨m, rfl⟩ : ∃ m, mi = m + 2 := ⟨mi - 2, by omega⟩
    obtain ⟨skvs, hσ⟩ := stepWf_obj σ hwf
    subst hσ
    obtain ⟨rkvs, hr⟩ := hobjres
    rw [hr] at herr htext
    have hstep : ∀ st : LoopState, stepLoop callT [PyJson.obj skvs] st false =
        .ok ({ st with
          allResults := st.allResults ++ [jsonSet (PyJson.obj rkvs) "purpose"
            ((PyJson.obj skvs).getD "purpose" (.str ""))],
          discovered := st.discovered ++ "\n\nDiscovered from " ++
            ((PyJson.obj skvs).getD "tool" PyJson.null).pyStr ++ ":\n" ++ t,
          calls := st.calls ++ [((PyJson.obj skvs).getD "tool" .null,
            (PyJson.obj skvs).getD "arguments" (.obj []))] }, true) := by
      intro st
      unfold stepLoop
      dsimp only
      rw [purposeOf_wf _ hwf]
      dsimp only
      rw [hr]
      dsimp only
      rw [if_pos (show (discKeywords.any fun kw =>
        pyContains (pyLower (purposeStr (PyJson.obj skvs))) kw) = true from hdisc)]
      rw [if_pos (by simp [herr])]
      rw [htext]
      dsimp only
      rw [if_pos (by simp [ht])]
      rfl
    rw [intelligentQuery_planArgs]
    conv_lhs => rw [iqLoop]
    dsimp only
    rw [hda]
    rw [if_neg (by simp)]
    have h2 : (plannerO 0 "").getD "steps" PyJson.null = .arr [PyJson.obj skvs] := by
      rw [PyJson.getD, hsteps]; rfl
    rw [h2]
    rw [if_neg (by simp [PyJson.truthy])]
    rw [show stepsIter (PyJson.arr [PyJson.obj skvs]) = .ok [PyJson.obj skvs] from rfl]
    dsimp only
    rw [hstep]
    dsimp only
    rw [if_pos ⟨rfl, by omega⟩]
    obtain ⟨ext, hext⟩ := iqLoop_planArgs_extend plannerO callT (m + 1) (by omega) (0 + 1) _
    rw [hext]
    dsimp only
    rw [List.get?_eq_getElem?, List.getElem?_append_left (by simp)]
    rfl
  · rw [combinedSchemaDescription, if_pos (by
      exact append_ne_empty_right _ _ ht)]
    rw [← str_append_assoc]
    exact pyContains_append_suffix _ t

def c5step : PyJson :=
  .obj [("tool", .str "kdbx_describe_tables"), ("arguments", .obj []),
    ("purpose", .str "discover schema")]

def c5planner : Nat → String → PyJson := fun i _ =>
  if i = 0 then .obj [("data_available", .bool true), ("steps", .arr [c5step])]
  else .obj [("data_available", .bool false), ("answer", .str "done")]

def c5call : PyJson → PyJson → PyJson := fun _ _ =>
  .obj [("isError", .bool false),
    ("content", .arr [.obj [("type", .str "text"), ("text", .str "TABLE x")]])]

def c5synth : List PyJson → String := fun _ => "synth"

/-- C5 (witness): a concrete two-iteration run in which the first plan
runs one describe-tables step discovering "TABLE x"; the second planner
call receives the accumulated discovery string, which carries the text
into the merged schema description. -/
theorem C5_schema_accumulation_witness :
    (intelligentQuery c5planner c5call c5synth 2).planArgs.get? 1 =
      some ("" ++ "\n\nDiscovered from " ++
        (c5step.getD "tool" PyJson.null).pyStr ++ ":\n" ++ "TABLE x") ∧
    pyContains (combinedSchemaDescription "BASE"
      ("" ++ "\n\nDiscovered from " ++ (c5step.getD "tool" PyJson.null).pyStr ++
        ":\n" ++ "TABLE x")) "TABLE x" = true :=
  ⟨(C5_schema_accumulation c5planner c5call c5synth 2 "BASE" c5step "TABLE x"
      (by decide) rfl rfl rfl (by decide) ⟨_, rfl⟩ rfl rfl (by decide)).1,
   (C5_schema_accumulation c5planner c5call c5synth 2 "BASE" c5step "TABLE x"
      (by decide) rfl rfl rfl (by decide) ⟨_, rfl⟩ rfl rfl (by decide)).2.1⟩

end KdbNat
